import Mathlib

/-!
# Bicubic Bezier patch evaluator and tessellator

A shallow embedding of the numerical kernel of the Bezier patch program
(`bezier_patch_modern.cpp`): `Vec3`, `crossp`, `dotp`, `normalize`,
`bernstein3`, `bernstein3_deriv`, `evalP`, `evalPu`, `evalPv` and `buildMesh`,
together with `loadControlPointsFromFile`, the start of `main`, the key
handler `keys`, and the matrix utilities `mat_mul`, `lookAt`, `mat4_to_mat3`,
`invert_mat3` and `transpose3` with the normal-matrix part of `display`.

The C++ code computes in `float`.  The embedding is written over an arbitrary
field `F`, so that the same definitions evaluate over `ℚ` and are reasoned
about over `ℝ` (exact arithmetic).  The global control grid `ctrl[4][4]` and
the global resolution `RES` are explicit arguments; the globals `verts` and
`inds` that `buildMesh` clears and refills are its result.
-/

namespace Bezier

/-! ## Vectors -/

/-- The `struct Vec3 { float x, y, z; }` of the source. -/
structure Vec3 (F : Type) where
  x : F
  y : F
  z : F
deriving DecidableEq, Repr

namespace Vec3

variable {F : Type}

/-- The default constructor `Vec3() : x(0), y(0), z(0)`. -/
def zero [Zero F] : Vec3 F := ⟨0, 0, 0⟩

/-- The source's `operator+`. -/
def add [Add F] (a o : Vec3 F) : Vec3 F := ⟨a.x + o.x, a.y + o.y, a.z + o.z⟩

/-- The source's `operator-`. -/
def sub [Sub F] (a o : Vec3 F) : Vec3 F := ⟨a.x - o.x, a.y - o.y, a.z - o.z⟩

/-- The source's `operator*(float s)`. -/
def smul [Mul F] (a : Vec3 F) (s : F) : Vec3 F := ⟨a.x * s, a.y * s, a.z * s⟩

end Vec3

section Kernel

variable {F : Type}

/-- The source's `crossp(a, b)`. -/
def crossp [Ring F] (a b : Vec3 F) : Vec3 F :=
  ⟨a.y * b.z - a.z * b.y, a.z * b.x - a.x * b.z, a.x * b.y - a.y * b.x⟩

/-- The source's `dotp(a, b)`. -/
def dotp [Ring F] (a b : Vec3 F) : F := a.x * b.x + a.y * b.y + a.z * b.z

/-- The source's `normalize(v)`: `L = sqrtf(dotp(v, v))`, and `v / L` when
`L > 1e-6f`, otherwise `v` itself.  The square root is an argument. -/
def normalize [LinearOrderedField F] (sqrtf : F → F) (v : Vec3 F) : Vec3 F :=
  let L := sqrtf (dotp v v)
  if L > 1 / 1000000 then ⟨v.x / L, v.y / L, v.z / L⟩ else v

/-- The control grid `Vec3 ctrl[4][4]`, read as `ctrl i j` for `ctrl[i][j]`. -/
abbrev ControlGrid (F : Type) := Fin 4 → Fin 4 → Vec3 F

/-- The table `d[16][3]` of `setDefaultControlPoints`. -/
def defaultTable [Field F] : Fin 16 → Vec3 F :=
  ![⟨-3/2, -3/2, 0⟩, ⟨-1/2, -3/2, 0⟩, ⟨1/2, -3/2, 0⟩, ⟨3/2, -3/2, 0⟩,
    ⟨-3/2, -1/2, 0⟩, ⟨-1/2, -1/2, 6/5⟩, ⟨1/2, -1/2, 6/5⟩, ⟨3/2, -1/2, 0⟩,
    ⟨-3/2, 1/2, 0⟩, ⟨-1/2, 1/2, 6/5⟩, ⟨1/2, 1/2, 6/5⟩, ⟨3/2, 1/2, 0⟩,
    ⟨-3/2, 3/2, 0⟩, ⟨-1/2, 3/2, 0⟩, ⟨1/2, 3/2, 0⟩, ⟨3/2, 3/2, 0⟩]

/-- The grid left by `setDefaultControlPoints`: `ctrl[i][j] = d[j * 4 + i]`. -/
def setDefaultControlPoints [Field F] : ControlGrid F :=
  fun i j => defaultTable ⟨j.val * 4 + i.val, by omega⟩

/-! ## Bernstein basis -/

/-- The source's `bernstein3(u, B)`: the four values written to `B[0..3]`. -/
def bernstein3 [Ring F] (u : F) : Fin 4 → F :=
  let om := 1 - u
  ![om * om * om, 3 * u * om * om, 3 * u * u * om, u * u * u]

/-- The source's `bernstein3_deriv(u, dB)`: the four values written to
`dB[0..3]`. -/
def bernstein3_deriv [Ring F] (u : F) : Fin 4 → F :=
  let om := 1 - u
  ![-3 * om * om, 3 * om * om - 6 * u * om, 6 * u * om - 3 * u * u, 3 * u * u]

/-! ## Surface evaluation -/

/-- The index range `0, 1, 2, 3` of the loops `for (int i = 0; i < 4; i++)`. -/
def idx4 : List (Fin 4) := [0, 1, 2, 3]

/-- The double accumulation loop shared by `evalP`, `evalPu` and `evalPv`:
starting from `Vec3 P` (zero), `P = P + ctrl[i][j] * (a[i] * b[j])` for
`i = 0..3` (outer) and `j = 0..3` (inner). -/
def accumulate [Ring F] (ctrl : ControlGrid F) (a b : Fin 4 → F) : Vec3 F :=
  idx4.foldl
    (fun P i => idx4.foldl (fun P j => Vec3.add P (Vec3.smul (ctrl i j) (a i * b j))) P)
    Vec3.zero

/-- The source's `evalP(u, v)`. -/
def evalP [Ring F] (ctrl : ControlGrid F) (u v : F) : Vec3 F :=
  let Bu := bernstein3 u
  let Bv := bernstein3 v
  accumulate ctrl Bu Bv

/-- The source's `evalPu(u, v)`. -/
def evalPu [Ring F] (ctrl : ControlGrid F) (u v : F) : Vec3 F :=
  let dBu := bernstein3_deriv u
  let Bv := bernstein3 v
  accumulate ctrl dBu Bv

/-- The source's `evalPv(u, v)`. -/
def evalPv [Ring F] (ctrl : ControlGrid F) (u v : F) : Vec3 F :=
  let Bu := bernstein3 u
  let dBv := bernstein3_deriv v
  accumulate ctrl Bu dBv

/-- The reference definition of the bicubic Bezier surface, following the
specification: the tensor-product sum over `i, j = 0..3` of
`ctrl[i][j] · C(3,i) u^i (1-u)^(3-i) · C(3,j) v^j (1-v)^(3-j)`, taken
component-wise. -/
def bezierSum [CommRing F] (ctrl : ControlGrid F) (u v : F) : Vec3 F :=
  let w : Fin 4 → Fin 4 → F := fun i j =>
    ((Nat.choose 3 i.val : F) * u ^ i.val * (1 - u) ^ (3 - i.val)) *
      ((Nat.choose 3 j.val : F) * v ^ j.val * (1 - v) ^ (3 - j.val))
  ⟨∑ i : Fin 4, ∑ j : Fin 4, (ctrl i j).x * w i j,
   ∑ i : Fin 4, ∑ j : Fin 4, (ctrl i j).y * w i j,
   ∑ i : Fin 4, ∑ j : Fin 4, (ctrl i j).z * w i j⟩

/-! ## Mesh construction -/

/-- The source's `struct Vertex { float px, py, pz, nx, ny, nz, u, v; }`. -/
structure Vertex (F : Type) where
  px : F
  py : F
  pz : F
  nx : F
  ny : F
  nz : F
  u : F
  v : F
deriving DecidableEq, Repr

/-- The two global buffers `verts` and `inds` filled by `buildMesh`. -/
structure Mesh (F : Type) where
  verts : List (Vertex F)
  inds : List Nat

/-- The body of the inner vertex loop of `buildMesh` for the sample `(i, j)`:
the vertex that is pushed onto `verts`. -/
def meshVertex [LinearOrderedField F] (sqrtf : F → F) (ctrl : ControlGrid F) (RES : Nat)
    (i j : Nat) : Vertex F :=
  let v : F := (j : F) / ((RES - 1 : Nat) : F)
  let u : F := (i : F) / ((RES - 1 : Nat) : F)
  let P := evalP ctrl u v
  let Pu := evalPu ctrl u v
  let Pv := evalPv ctrl u v
  let N := normalize sqrtf (crossp Pu Pv)
  ⟨P.x, P.y, P.z, N.x, N.y, N.z, u, v⟩

/-- The body of the inner index loop of `buildMesh` for the cell `(i, j)`:
the six indices `{ i00, i10, i11, i00, i11, i01 }` appended to `inds`. -/
def cellIndices (RES : Nat) (i j : Nat) : List Nat :=
  let i00 := j * RES + i
  let i10 := i00 + 1
  let i01 := i00 + RES
  let i11 := i01 + 1
  [i00, i10, i11, i00, i11, i01]

/-- The source's `buildMesh()`.  Both buffers start empty (`clear`); the first
pair of loops pushes one vertex per sample `(i, j)`, `j` outer and `i` inner,
both over `0 .. RES-1`; the second pair appends six indices per cell, both
loops over `0 .. RES-2`.  The program keeps `RES` between 4 and 128, where
none of the `int` and `unsigned int` operations wraps, so they are taken in
`Nat`. -/
def buildMesh [LinearOrderedField F] (sqrtf : F → F) (ctrl : ControlGrid F) (RES : Nat) :
    Mesh F :=
  let verts : List (Vertex F) :=
    (List.range RES).foldl
      (fun verts j =>
        (List.range RES).foldl (fun verts i => verts ++ [meshVertex sqrtf ctrl RES i j]) verts)
      []
  let inds : List Nat :=
    (List.range (RES - 1)).foldl
      (fun inds j =>
        (List.range (RES - 1)).foldl (fun inds i => inds ++ cellIndices RES i j) inds)
      []
  ⟨verts, inds⟩

/-! ## Loading the control grid -/

/-- The assignment `ctrl[i][j] = p`. -/
def setCtrl (ctrl : ControlGrid F) (i j : Fin 4) (p : Vec3 F) : ControlGrid F :=
  fun a b => if a = i ∧ b = j then p else ctrl a b

/-- One evaluation of `in >> x >> y >> z`.  The stream is the list of results
that successive extractions deliver: `some x` for a number, `none` for text
that is not a number; the end of the list is the end of the file.  The read
succeeds when three numbers follow, and then leaves the rest of the stream. -/
def readTriplet : List (Option F) → Option (Vec3 F × List (Option F))
  | some x :: some y :: some z :: rest => some (⟨x, y, z⟩, rest)
  | _ => none

/-- The order in which the loops `for j` (outer), `for i` (inner) of
`loadControlPointsFromFile` visit the grid, as pairs `(j, i)`. -/
def loadOrder : List (Fin 4 × Fin 4) :=
  idx4.flatMap (fun j => idx4.map (fun i => (j, i)))

/-- The loops of `loadControlPointsFromFile` over the remaining pairs `(j, i)`:
a failed read returns `false` at once, a read triplet is stored in
`ctrl[i][j]`; `true` after the last pair. -/
def loadLoop : List (Fin 4 × Fin 4) → List (Option F) → ControlGrid F → Bool × ControlGrid F
  | [], _, ctrl => (true, ctrl)
  | (j, i) :: more, s, ctrl =>
    match readTriplet s with
    | none => (false, ctrl)
    | some (p, rest) => loadLoop more rest (setCtrl ctrl i j p)

/-- The source's `loadControlPointsFromFile(fname)`: the returned flag and the
global grid after the call.  `file = none` is a file that cannot be opened. -/
def loadControlPointsFromFile (file : Option (List (Option F))) (ctrl : ControlGrid F) :
    Bool × ControlGrid F :=
  match file with
  | none => (false, ctrl)
  | some s => loadLoop loadOrder s ctrl

/-- The number of complete triplets of numbers at the head of a stream. -/
def countTriplets : List (Option F) → Nat
  | some _ :: some _ :: some _ :: rest => countTriplets rest + 1
  | _ => 0

/-- The triplet number `k` (0-based, in file order) of a stream, when the
stream holds more than `k` complete triplets at its head. -/
def tripletAt : List (Option F) → Nat → Option (Vec3 F)
  | some x :: some y :: some z :: _, 0 => some ⟨x, y, z⟩
  | some _ :: some _ :: some _ :: rest, k + 1 => tripletAt rest k
  | _, _ => none

/-! ## Program state, start-up and key handler -/

/-- The globals of the Bezier program that `main` and `keys` write: the
control grid, `RES`, the mesh buffers `verts` and `inds`, `camDistVal` and
`useTex`. -/
structure App (F : Type) where
  ctrl : ControlGrid F
  RES : Nat
  mesh : Mesh F
  camDistVal : F
  useTex : Bool

/-- The grid after the first statement of `main`:
`if (!loadControlPointsFromFile("patchPoints.txt")) setDefaultControlPoints();`
starting from the zero-initialised global `ctrl`. -/
def startupGrid [Field F] (file : Option (List (Option F))) : ControlGrid F :=
  let r := loadControlPointsFromFile file (fun _ _ => Vec3.zero)
  if !r.1 then setDefaultControlPoints else r.2

/-- The state when `main` enters the event loop: the grid of `startupGrid`,
the initial values `RES = 32`, `camDistVal = 6.0f`, `useTex = true`, and the
mesh of the first `buildMesh()`. -/
def startup [LinearOrderedField F] (sqrtf : F → F) (file : Option (List (Option F))) : App F :=
  let ctrl := startupGrid file
  { ctrl := ctrl, RES := 32, mesh := buildMesh sqrtf ctrl 32, camDistVal := 6, useTex := true }

/-- The source's `keys(k, x, y)`; `none` is `exit(0)`.  The tests are
successive `if`s, each on the state left by the previous ones.  On `+`/`=`
and on `-`/`_` the resolution is stepped by 4 within `[4, 128]` and the mesh
is rebuilt (`upload()` then copies both buffers to the GPU). -/
def keys [LinearOrderedField F] (sqrtf : F → F) (st : App F) (k : Char) : Option (App F) :=
  if k = Char.ofNat 27 ∨ k = 'q' then none
  else
    let st := if k = 'w' then { st with camDistVal := max (1 / 2) (st.camDistVal - 3 / 10) } else st
    let st := if k = 's' then { st with camDistVal := st.camDistVal + 3 / 10 } else st
    let st := if k = 't' then { st with useTex := !st.useTex } else st
    let st :=
      if k = '+' ∨ k = '=' then
        { st with RES := min 128 (st.RES + 4), mesh := buildMesh sqrtf st.ctrl (min 128 (st.RES + 4)) }
      else st
    let st :=
      if k = '-' ∨ k = '_' then
        { st with RES := max 4 (st.RES - 4), mesh := buildMesh sqrtf st.ctrl (max 4 (st.RES - 4)) }
      else st
    some st

/-- The event loop restricted to key events: `keys` applied to each key in
turn, stopping with `none` when the program exits. -/
def runKeys [LinearOrderedField F] (sqrtf : F → F) : App F → List Char → Option (App F)
  | st, [] => some st
  | st, k :: ks =>
    match keys sqrtf st k with
    | none => none
    | some st1 => runKeys sqrtf st1 ks

/-- A stream of the 48 numbers `0, 1, .., 47`: sixteen triplets, triplet `n`
being `(3n, 3n+1, 3n+2)`. -/
def sampleStream : List (Option ℚ) := (List.range 48).map (fun n => some (n : ℚ))

/-- A stream that ends after one triplet. -/
def shortStream : List (Option ℚ) := [some 1, some 2, some 3]

/-! ## Matrices -/

/-- The member `float m[16]` of `struct Mat4`, column-major: the entry of row
`r` and column `c` is `m[c * 4 + r]`. -/
abbrev Mat4 (F : Type) := Fin 16 → F

/-- A `float[9]` holding a 3×3 matrix, column-major: the entry of row `r` and
column `c` is at index `c * 3 + r`. -/
abbrev Mat3 (F : Type) := Fin 9 → F

/-- The source's `mat_identity()`: the zero-filled `Mat4` with
`m[0] = m[5] = m[10] = m[15] = 1`. -/
def mat_identity [Field F] : Mat4 F :=
  Function.update (Function.update (Function.update (Function.update (fun _ => 0) 15 1) 10 1) 5 1)
    0 1

/-- The source's `mat_mul(A, B)`: for every row `r` and column `c` the entry
`R.m[c*4 + r]` is the sum, accumulated from `0` over `k = 0..3`, of
`A.m[k*4 + r] * B.m[c*4 + k]`.  The entry at index `n` has `r = n % 4` and
`c = n / 4`. -/
def mat_mul [Field F] (A B : Mat4 F) : Mat4 F :=
  fun n =>
    idx4.foldl
      (fun s k => s + A ⟨k.val * 4 + n.val % 4, by omega⟩ * B ⟨n.val / 4 * 4 + k.val, by omega⟩)
      0

/-- The source's `lookAt(eye, center, up)`: the identity matrix with the
entries 0, 4, 8, 1, 5, 9, 2, 6, 10, 12, 13, 14 assigned in this order. -/
def lookAt [LinearOrderedField F] (sqrtf : F → F) (eye center up : Vec3 F) : Mat4 F :=
  let f := normalize sqrtf (Vec3.sub center eye)
  let s := normalize sqrtf (crossp f up)
  let u := crossp s f
  let M : Mat4 F := mat_identity
  let M := Function.update M 0 s.x
  let M := Function.update M 4 s.y
  let M := Function.update M 8 s.z
  let M := Function.update M 1 u.x
  let M := Function.update M 5 u.y
  let M := Function.update M 9 u.z
  let M := Function.update M 2 (-f.x)
  let M := Function.update M 6 (-f.y)
  let M := Function.update M 10 (-f.z)
  let M := Function.update M 12 (-dotp s eye)
  let M := Function.update M 13 (-dotp u eye)
  let M := Function.update M 14 (dotp f eye)
  M

/-- The source's `mat4_to_mat3(M, out3)`: the nine values written to
`out3[0..8]`. -/
def mat4_to_mat3 (M : Mat4 F) : Mat3 F :=
  ![M 0, M 1, M 2, M 4, M 5, M 6, M 8, M 9, M 10]

/-- The source's `invert_mat3(m, out)`: `none` when it returns `false`
(`fabs(det) < 1e-12f`), otherwise the nine values written to `out[0..8]`,
in the order `r00, r01, r02, r10, r11, r12, r20, r21, r22`. -/
def invert_mat3 [LinearOrderedField F] (m : Mat3 F) : Option (Mat3 F) :=
  let a00 := m 0
  let a10 := m 1
  let a20 := m 2
  let a01 := m 3
  let a11 := m 4
  let a21 := m 5
  let a02 := m 6
  let a12 := m 7
  let a22 := m 8
  let det := a00 * (a11 * a22 - a21 * a12) - a01 * (a10 * a22 - a20 * a12)
    + a02 * (a10 * a21 - a20 * a11)
  if |det| < 1 / 1000000000000 then none
  else
    let invDet := 1 / det
    let r00 := (a11 * a22 - a21 * a12) * invDet
    let r01 := -(a01 * a22 - a21 * a02) * invDet
    let r02 := (a01 * a12 - a11 * a02) * invDet
    let r10 := -(a10 * a22 - a20 * a12) * invDet
    let r11 := (a00 * a22 - a20 * a02) * invDet
    let r12 := -(a00 * a12 - a10 * a02) * invDet
    let r20 := (a10 * a21 - a20 * a11) * invDet
    let r21 := -(a00 * a21 - a20 * a01) * invDet
    let r22 := (a00 * a11 - a10 * a01) * invDet
    some ![r00, r01, r02, r10, r11, r12, r20, r21, r22]

/-- The source's `transpose3(in, out)`: the nine values written to
`out[0..8]`. -/
def transpose3 (m : Mat3 F) : Mat3 F :=
  ![m 0, m 3, m 6, m 1, m 4, m 7, m 2, m 5, m 8]

/-- The normal-matrix part of the source's `display()`, for the eye position
`eye` that it computes from the camera angles: the matrix `vm3` handed to
`invert_mat3`, the flag `ok`, and the array `normalMat` uploaded as
`uNormalMat`. -/
def displayNormalMat [LinearOrderedField F] (sqrtf : F → F) (eye : Vec3 F) :
    Mat3 F × Bool × Mat3 F :=
  let center : Vec3 F := ⟨0, 0, 0⟩
  let up : Vec3 F := ⟨0, 1, 0⟩
  let view := lookAt sqrtf eye center up
  let model : Mat4 F := mat_identity
  let viewModel := mat_mul view model
  let vm3 := mat4_to_mat3 viewModel
  match invert_mat3 vm3 with
  | some inv3 => (vm3, true, transpose3 inv3)
  | none => (vm3, false, vm3)

/-- The entry of row `r` and column `c` of a column-major 3×3 array. -/
def entry3 (m : Mat3 F) (r c : Fin 3) : F := m ⟨c.val * 3 + r.val, by omega⟩

/-- The matrix product of two column-major 3×3 arrays, as a table of entries
indexed by row and column. -/
def mul3 [Field F] (a b : Mat3 F) (r c : Fin 3) : F :=
  ∑ k : Fin 3, entry3 a r k * entry3 b k c

/-- The entries of the 3×3 identity matrix. -/
def identity3 [Field F] (r c : Fin 3) : F := if r = c then 1 else 0

/-- The product of a column-major 4×4 matrix with a column vector: component
`r` is the sum over the columns `c` of `m[c * 4 + r] * v[c]`. -/
def mulVec4 [Field F] (M : Mat4 F) (v : Fin 4 → F) (r : Fin 4) : F :=
  ∑ c : Fin 4, M ⟨c.val * 4 + r.val, by omega⟩ * v c

end Kernel

end Bezier

/-!
# Colour-coded object picking

A shallow embedding of the picking program (`Task2.cpp`): the table
`pickColorBytes`, `buildPickingFBO`, `reshape` and `pickAt`.  The OpenGL side
is the environment: the framebuffer status that `glCheckFramebufferStatus`
reports, the bytes that `glReadPixels` delivers and the values that `rand()`
returns are arguments; the GL commands a function issues are returned as a
list.
-/

namespace Picking

/-- The buffer `unsigned char pixel[3]`. -/
abbrev Pixel := Fin 3 → Fin 256

/-- The table `pickColorBytes[3][3]`. -/
def pickColorBytes : Fin 3 → Pixel :=
  ![![10, 20, 30], ![40, 50, 60], ![70, 80, 90]]

/-- The GL commands of `pickAt` that touch the picking target, and the
redisplay request. -/
inductive GLCall where
  | bindPickFBO
  | viewport (w h : Int)
  | clear
  | drawScene (pickMode : Bool)
  | readPixels (x y : Int)
  | bindDefault
  | postRedisplay
deriving DecidableEq, Repr

/-- The globals of the picking program that the modelled functions use, and
the completeness of the framebuffer object named by `pickFBO` (GL state). -/
structure PickApp (F : Type) where
  winW : Int
  winH : Int
  objColor : Fin 3 → Fin 3 → F
  fboComplete : Bool

/-- The value of `GL_FRAMEBUFFER_COMPLETE` (`0x8CD5`). -/
def GL_FRAMEBUFFER_COMPLETE : Nat := 36053

/-- The source's `buildPickingFBO(w, h)`: the returned flag and the state
after the call.  `status` is what `glCheckFramebufferStatus` reports for the
rebuilt target; the function returns `false` when it is not
`GL_FRAMEBUFFER_COMPLETE` and `true` otherwise, and stores nothing else. -/
def buildPickingFBO {F : Type} (st : PickApp F) (status : Nat) : Bool × PickApp F :=
  if status ≠ GL_FRAMEBUFFER_COMPLETE then (false, { st with fboComplete := false })
  else (true, { st with fboComplete := true })

/-- The source's `reshape(w, h)`: the window size is clamped to at least 1,
the picking target is rebuilt, and a `false` result is only logged. -/
def reshape {F : Type} (st : PickApp F) (w h : Int) (status : Nat) : PickApp F :=
  let st1 := { st with winW := max 1 w, winH := max 1 h }
  (buildPickingFBO st1 status).2

/-- The colour-to-id decision of `pickAt`: `picked` starts at `-1` and is set
by the `if / else if` chain of exact comparisons with `pickColorBytes`. -/
def identify (pixel : Pixel) : Int :=
  if pixel 0 = pickColorBytes 0 0 ∧ pixel 1 = pickColorBytes 0 1 ∧ pixel 2 = pickColorBytes 0 2
  then 0
  else if pixel 0 = pickColorBytes 1 0 ∧ pixel 1 = pickColorBytes 1 1
      ∧ pixel 2 = pickColorBytes 1 2
  then 1
  else if pixel 0 = pickColorBytes 2 0 ∧ pixel 1 = pickColorBytes 2 1
      ∧ pixel 2 = pickColorBytes 2 2
  then 2
  else -1

/-- What a call of `pickAt` leaves: the state, the local `picked`, and the GL
commands issued, in order. -/
structure PickOutcome (F : Type) where
  state : PickApp F
  picked : Int
  calls : List GLCall

/-- The source's `pickAt(mx, my)`.  `readback` is what `glReadPixels` writes
into `pixel` (`none` when it writes nothing, so that `pixel` keeps its
initial value `{0, 0, 0}`); `rnd 0, rnd 1, rnd 2` are the results of the three
`rand()` calls.  The function does not consult the result of
`buildPickingFBO`. -/
def pickAt {F : Type} [Field F] (RAND_MAX : Nat) (st : PickApp F) (mx my : Int)
    (readback : Option Pixel) (rnd : Fin 3 → Nat) : PickOutcome F :=
  let readY := st.winH - 1 - my
  let pixel : Pixel := match readback with
    | some p => p
    | none => ![0, 0, 0]
  let calls := [GLCall.bindPickFBO, GLCall.viewport st.winW st.winH, GLCall.clear,
    GLCall.drawScene true, GLCall.readPixels mx readY, GLCall.bindDefault]
  let picked := identify pixel
  if picked ≥ 0 then
    { state := { st with objColor := fun a b =>
        if (a.val : Int) = picked then (rnd b : F) / (RAND_MAX : F) else st.objColor a b },
      picked := picked,
      calls := calls ++ [GLCall.postRedisplay] }
  else
    { state := st, picked := picked, calls := calls }

/-- The globals of the picking program at start-up: an 900 × 700 window, the
initial table `objColor[3][3]`, and no picking target yet. -/
def initialApp {F : Type} [Field F] : PickApp F :=
  { winW := 900, winH := 700,
    objColor := ![![4 / 5, 1 / 5, 1 / 5], ![1 / 5, 4 / 5, 1 / 5], ![1 / 5, 1 / 5, 4 / 5]],
    fboComplete := false }

end Picking

/-!
# Popup menu and animation

A shallow embedding of the popup-menu program (`Assn2_Part1.cpp`): the menu
state, `initMenu`, `getMenuItemAt`, `handleMenuSelection`,
`mouseButtonCallback` and `updateAnimations`.  The globals the functions read
and write are the fields of one state record; the cursor position that
`glfwGetCursorPos` reports is an argument; console output is left out.

The constants are the values of the `float` literals of the source
(`0.4f` is `13421773 / 2^25`, `0.01f` is `5368709 / 2^29`, and so on).  The
rounding of the machine arithmetic is an argument `rd : Rounding F` of every
function that computes: `rd.single` is applied to the result of each `float`
operation and `rd.double` to the result of each `double` operation.
`exactArith` rounds nothing; `ieee` rounds to the nearest value of 24,
respectively 53, significant bits, ties to even.
-/

namespace PopupMenu

/-- The source's `struct MenuItem`. -/
structure MenuItem (F : Type) where
  label : String
  yPosition : F
  isSubmenu : Bool
  action : Int
  color : Fin 3 → F

/-- The source's `enum SquareColor { WHITE, RED, GREEN }`. -/
inductive SquareColor where
  | WHITE
  | RED
  | GREEN
deriving DecidableEq, Repr

/-- The globals of the program that the modelled functions use. -/
structure State (F : Type) where
  animationEnabled : Bool
  squareRotation : F
  triangleRotation : F
  circleScale : F
  circleGrowing : Bool
  currentSquareColor : SquareColor
  showMenu : Bool
  menuX : F
  menuY : F
  menuItems : List (MenuItem F)
  squareColorsSubmenu : Bool

section Defs

variable {F : Type}

/-- The rounding applied to the result of each `float` operation (`single`)
and of each `double` operation (`double`). -/
structure Rounding (F : Type) where
  single : F → F
  double : F → F

/-- Exact arithmetic: no result is rounded. -/
def exactArith : Rounding F := ⟨fun q => q, fun q => q⟩

/-- The nearest integer, the even one of the two when they are equally
near. -/
def roundHalfEven [LinearOrderedField F] [FloorRing F] (t : F) : Int :=
  let f := ⌊t⌋
  let r := t - (f : F)
  if r < 1 / 2 then f else if 1 / 2 < r then f + 1 else if f % 2 = 0 then f else f + 1

/-- Rounding to the nearest binary floating-point value with `m` fraction
bits, ties to even: with `2^e ≤ |q| < 2^(e+1)` the result is the multiple of
`2^(e - m)` nearest to `q`.  Overflow and subnormal values are left out. -/
def roundBinary [LinearOrderedField F] [FloorRing F] (m : Int) (q : F) : F :=
  if q = 0 then 0
  else
    let e := Int.log 2 |q|
    let u : F := 2 ^ (e - m)
    (roundHalfEven (q / u) : F) * u

/-- The arithmetic of the compiled program: `float` has 23 fraction bits and
`double` has 52. -/
def ieee [LinearOrderedField F] [FloorRing F] : Rounding F := ⟨roundBinary 23, roundBinary 52⟩

/-- The initial values of the globals. -/
def initialState [Field F] : State F :=
  { animationEnabled := true, squareRotation := 0, triangleRotation := 0, circleScale := 1,
    circleGrowing := true, currentSquareColor := SquareColor.WHITE, showMenu := false,
    menuX := 0, menuY := 0, menuItems := [], squareColorsSubmenu := false }

/-- The constant `WINDOW_WIDTH`. -/
def WINDOW_WIDTH : Nat := 800

/-- The constant `WINDOW_HEIGHT`. -/
def WINDOW_HEIGHT : Nat := 600

/-- The constant `MENU_WIDTH = 0.4f`, whose value is `13421773 / 2^25`. -/
def MENU_WIDTH [Field F] : F := 13421773 / 33554432

/-- The constant `ITEM_HEIGHT = 0.07f`, whose value is `9395241 / 2^27`. -/
def ITEM_HEIGHT [Field F] : F := 9395241 / 134217728

/-- The value of `GLFW_MOUSE_BUTTON_LEFT`. -/
def GLFW_MOUSE_BUTTON_LEFT : Int := 0

/-- The value of `GLFW_MOUSE_BUTTON_RIGHT`. -/
def GLFW_MOUSE_BUTTON_RIGHT : Int := 1

/-- The value of `GLFW_PRESS`. -/
def GLFW_PRESS : Int := 1

/-- The three items that `initMenu` pushes for the main menu; `0.08f` is
`5368709 / 2^26`. -/
def mainMenuItems [Field F] : List (MenuItem F) :=
  [{ label := "Stop", yPosition := 5368709 / 67108864, isSubmenu := false, action := 1,
     color := ![1, 0, 0] },
   { label := "Start", yPosition := 0, isSubmenu := false, action := 2, color := ![0, 1, 0] },
   { label := "Colors", yPosition := -(5368709 / 67108864), isSubmenu := true, action := 3,
     color := ![0, 0, 1] }]

/-- The four items that `initMenu` pushes for the square-colours submenu;
`0.16f` is `5368709 / 2^25`. -/
def submenuItems [Field F] : List (MenuItem F) :=
  [{ label := "White", yPosition := 5368709 / 67108864, isSubmenu := false, action := 4,
     color := ![1, 1, 1] },
   { label := "Red", yPosition := 0, isSubmenu := false, action := 5, color := ![1, 0, 0] },
   { label := "Green", yPosition := -(5368709 / 67108864), isSubmenu := false, action := 6,
     color := ![0, 1, 0] },
   { label := "Back", yPosition := -(5368709 / 33554432), isSubmenu := false, action := 7,
     color := ![1 / 2, 1 / 2, 1 / 2] }]

/-- The source's `initMenu()`: `menuItems` is cleared and refilled according
to `squareColorsSubmenu`. -/
def initMenu [Field F] (st : State F) : State F :=
  if !st.squareColorsSubmenu then { st with menuItems := mainMenuItems }
  else { st with menuItems := submenuItems }

/-- The local `menuLeft = menuX - MENU_WIDTH/2` of `getMenuItemAt`. -/
def menuLeft [Field F] (rd : Rounding F) (st : State F) : F :=
  rd.single (st.menuX - rd.single (MENU_WIDTH / 2))

/-- The local `menuRight = menuX + MENU_WIDTH/2` of `getMenuItemAt`. -/
def menuRight [Field F] (rd : Rounding F) (st : State F) : F :=
  rd.single (st.menuX + rd.single (MENU_WIDTH / 2))

/-- The local `itemTop = menuY + menuItems[i].yPosition + ITEM_HEIGHT/2` of
`getMenuItemAt`. -/
def itemTop [Field F] (rd : Rounding F) (st : State F) (item : MenuItem F) : F :=
  rd.single (rd.single (st.menuY + item.yPosition) + rd.single (ITEM_HEIGHT / 2))

/-- The local `itemBottom = menuY + menuItems[i].yPosition - ITEM_HEIGHT/2` of
`getMenuItemAt`. -/
def itemBottom [Field F] (rd : Rounding F) (st : State F) (item : MenuItem F) : F :=
  rd.single (rd.single (st.menuY + item.yPosition) - rd.single (ITEM_HEIGHT / 2))

/-- The loop of `getMenuItemAt` over the items from index `i` on: the index of
the first item whose test succeeds, `-1` after the last item. -/
def getMenuItemLoop [LinearOrderedField F] (rd : Rounding F) (st : State F) (x y : F) :
    List (MenuItem F) → Nat → Int
  | [], _ => -1
  | item :: rest, i =>
    if x ≥ menuLeft rd st ∧ x ≤ menuRight rd st ∧ y ≤ itemTop rd st item
        ∧ y ≥ itemBottom rd st item then (i : Int)
    else getMenuItemLoop rd st x y rest (i + 1)

/-- The source's `getMenuItemAt(x, y)`. -/
def getMenuItemAt [LinearOrderedField F] (rd : Rounding F) (st : State F) (x y : F) : Int :=
  if !st.showMenu then -1
  else getMenuItemLoop rd st x y st.menuItems 0

/-- The source's `handleMenuSelection(itemIndex)`. -/
def handleMenuSelection [Field F] (st : State F) (itemIndex : Int) : State F :=
  if itemIndex < 0 ∨ itemIndex ≥ (st.menuItems.length : Int) then st
  else
    match st.menuItems[itemIndex.toNat]? with
    | none => st
    | some item =>
      let action := item.action
      if action = 1 then { st with animationEnabled := false, showMenu := false }
      else if action = 2 then { st with animationEnabled := true, showMenu := false }
      else if action = 3 then initMenu { st with squareColorsSubmenu := true }
      else if action = 4 then
        { st with currentSquareColor := SquareColor.WHITE, showMenu := false,
                  squareColorsSubmenu := false }
      else if action = 5 then
        { st with currentSquareColor := SquareColor.RED, showMenu := false,
                  squareColorsSubmenu := false }
      else if action = 6 then
        { st with currentSquareColor := SquareColor.GREEN, showMenu := false,
                  squareColorsSubmenu := false }
      else if action = 7 then initMenu { st with squareColorsSubmenu := false }
      else st

/-- The conversion `(xpos / WINDOW_WIDTH) * 2.0f - 1.0f` of a cursor
coordinate, computed in `double` and stored in a `float`. -/
def ndcOfX [Field F] (rd : Rounding F) (xpos : F) : F :=
  rd.single (rd.double (rd.double (rd.double (xpos / (WINDOW_WIDTH : F)) * 2) - 1))

/-- The conversion `1.0f - (ypos / WINDOW_HEIGHT) * 2.0f` of a cursor
coordinate, computed in `double` and stored in a `float`. -/
def ndcOfY [Field F] (rd : Rounding F) (ypos : F) : F :=
  rd.single (rd.double (1 - rd.double (rd.double (ypos / (WINDOW_HEIGHT : F)) * 2)))

/-- The source's `mouseButtonCallback(window, button, action, mods)`.
`isMain` is `window == mainWindow`; `xpos, ypos` is the cursor position. -/
def mouseButtonCallback [LinearOrderedField F] (rd : Rounding F) (st : State F) (isMain : Bool)
    (button action : Int) (xpos ypos : F) : State F :=
  if isMain then
    if button = GLFW_MOUSE_BUTTON_LEFT ∧ action = GLFW_PRESS then
      let ndcX := ndcOfX rd xpos
      let ndcY := ndcOfY rd ypos
      if st.showMenu then
        let itemIndex := getMenuItemAt rd st ndcX ndcY
        if itemIndex ≠ -1 then handleMenuSelection st itemIndex
        else { st with showMenu := false, squareColorsSubmenu := false }
      else st
    else if button = GLFW_MOUSE_BUTTON_RIGHT ∧ action = GLFW_PRESS then
      let st1 := { st with menuX := ndcOfX rd xpos, menuY := ndcOfY rd ypos }
      let st2 := initMenu { st1 with squareColorsSubmenu := false }
      { st2 with showMenu := true }
    else st
  else st

/-- A mouse press on the main window: the button (`true` for the right one)
and the cursor position. -/
structure Press (F : Type) where
  right : Bool
  xpos : F
  ypos : F

/-- The state after a sequence of left and right mouse presses on the main
window. -/
def runPresses [LinearOrderedField F] (rd : Rounding F) (st : State F) (ps : List (Press F)) :
    State F :=
  ps.foldl
    (fun st p =>
      mouseButtonCallback rd st true
        (if p.right then GLFW_MOUSE_BUTTON_RIGHT else GLFW_MOUSE_BUTTON_LEFT) GLFW_PRESS
        p.xpos p.ypos)
    st

/-- The value of the literal `0.01f`, `5368709 / 2^29`; it is slightly less
than `1/100`. -/
def scaleStep [Field F] : F := 5368709 / 536870912

/-- The source's `updateAnimations()`.  The literal `0.015f` is
`16106127 / 2^30`; `1.5f` and `0.5f` are exact. -/
def updateAnimations [LinearOrderedField F] (rd : Rounding F) (st : State F) : State F :=
  if !st.animationEnabled then st
  else
    let st := { st with squareRotation := rd.single (st.squareRotation + scaleStep) }
    let st :=
      { st with triangleRotation := rd.single (st.triangleRotation - 16106127 / 1073741824) }
    if st.circleGrowing then
      let st := { st with circleScale := rd.single (st.circleScale + scaleStep) }
      if st.circleScale ≥ 3 / 2 then { st with circleGrowing := false } else st
    else
      let st := { st with circleScale := rd.single (st.circleScale - scaleStep) }
      if st.circleScale ≤ 1 / 2 then { st with circleGrowing := true } else st

/-- The state after a sequence of `updateAnimations` calls, `animationEnabled`
having the given value at each call. -/
def runAnimations [LinearOrderedField F] (rd : Rounding F) (st : State F) (flags : List Bool) :
    State F :=
  flags.foldl (fun st b => updateAnimations rd { st with animationEnabled := b }) st

/-- The rectangle test of a menu item in the words of the specification:
`|x - menuX| ≤ MENU_WIDTH/2` and `|y - (menuY + yPosition)| ≤ ITEM_HEIGHT/2`. -/
def itemRectContains [LinearOrderedField F] (st : State F) (x y : F) (item : MenuItem F) : Prop :=
  |x - st.menuX| ≤ MENU_WIDTH / 2 ∧ |y - (st.menuY + item.yPosition)| ≤ ITEM_HEIGHT / 2

/-- The test of `getMenuItemAt` for one item: the four comparisons of the `if`
against the edges as the function computes them. -/
def itemHit [LinearOrderedField F] (rd : Rounding F) (st : State F) (x y : F)
    (item : MenuItem F) : Prop :=
  x ≥ menuLeft rd st ∧ x ≤ menuRight rd st ∧ y ≤ itemTop rd st item ∧ y ≥ itemBottom rd st item

/-- The menu state right after a right click at the centre of the window, in
exact arithmetic: the main menu shown at `(0, 0)`. -/
def openedAtCentre [LinearOrderedField F] : State F :=
  mouseButtonCallback exactArith initialState true GLFW_MOUSE_BUTTON_RIGHT GLFW_PRESS 400 300

/-- A state with the main menu shown at `menuX = -0.48f` (the value
`-16106127 / 2^25`) and `menuY = 0`: the state after a right click at the
cursor position `(208, 300)`. -/
def menuNearEdge : State ℚ :=
  { (initialState : State ℚ) with
    showMenu := true, menuX := -(16106127 / 33554432), menuY := 0, menuItems := mainMenuItems }

/-- The `float` value `-0.68f`, `-11408507 / 2^24`: the `ndcX` of a click at
the cursor position `x = 128`. -/
def xNearEdge : ℚ := -(11408507 / 16777216)

end Defs

end PopupMenu

namespace Bezier

/-! ## Properties of the basis and of the surface evaluator -/

/-- The accumulation loop, unrolled: each component of the result is the
double sum of the corresponding control-point components times `a i * b j`. -/
theorem accumulate_eq_sum {F : Type} [CommRing F] (ctrl : ControlGrid F) (a b : Fin 4 → F) :
    accumulate ctrl a b =
      ⟨∑ i : Fin 4, ∑ j : Fin 4, (ctrl i j).x * (a i * b j),
       ∑ i : Fin 4, ∑ j : Fin 4, (ctrl i j).y * (a i * b j),
       ∑ i : Fin 4, ∑ j : Fin 4, (ctrl i j).z * (a i * b j)⟩ := by
  simp only [accumulate, idx4, List.foldl_cons, List.foldl_nil, Vec3.add, Vec3.smul,
    Vec3.zero, Fin.sum_univ_four, Vec3.mk.injEq]
  refine ⟨?_, ?_, ?_⟩ <;> ring

/-- The values written by `bernstein3` in closed form, over any commutative
ring: `B[k] = C(3,k) · t^k · (1-t)^(3-k)`. -/
theorem bernstein3_closed_form {F : Type} [CommRing F] (t : F) (k : Fin 4) :
    bernstein3 t k = (Nat.choose 3 k.val : F) * t ^ k.val * (1 - t) ^ (3 - k.val) := by
  fin_cases k
  · show (1 - t) * (1 - t) * (1 - t) = ((1 : ℕ) : F) * t ^ 0 * (1 - t) ^ 3
    push_cast; ring
  · show 3 * t * (1 - t) * (1 - t) = ((3 : ℕ) : F) * t ^ 1 * (1 - t) ^ 2
    push_cast; ring
  · show 3 * t * t * (1 - t) = ((3 : ℕ) : F) * t ^ 2 * (1 - t) ^ 1
    push_cast; ring
  · show t * t * t = ((1 : ℕ) : F) * t ^ 3 * (1 - t) ^ 0
    push_cast; ring

/-- C1: for every real `t`, the four values written by `bernstein3 t` sum to
exactly `1` (partition of unity). -/
theorem bernstein3_sum_eq_one (t : ℝ) :
    bernstein3 t 0 + bernstein3 t 1 + bernstein3 t 2 + bernstein3 t 3 = 1 := by
  simp [bernstein3]
  ring

/-- C2: for every real `t`, the four values written by `bernstein3_deriv t`
sum to exactly `0`. -/
theorem bernstein3_deriv_sum_eq_zero (t : ℝ) :
    bernstein3_deriv t 0 + bernstein3_deriv t 1 + bernstein3_deriv t 2
      + bernstein3_deriv t 3 = 0 := by
  simp [bernstein3_deriv]
  ring

/-- C3: for every real `t` and every `k` in `0..3`, the `k`-th value written
by `bernstein3 t` is `C(3,k) · t^k · (1-t)^(3-k)`; the function is total, so
no `t` is rejected. -/
theorem bernstein3_eq_choose (t : ℝ) (k : Fin 4) :
    bernstein3 t k = (Nat.choose 3 k.val : ℝ) * t ^ k.val * (1 - t) ^ (3 - k.val) := by
  exact bernstein3_closed_form t k

/-- C4: for every control grid, `evalP` returns the corner control points at
the corner parameters: `(0,0) ↦ ctrl[0][0]`, `(1,1) ↦ ctrl[3][3]`,
`(1,0) ↦ ctrl[3][0]`, `(0,1) ↦ ctrl[0][3]`. -/
theorem evalP_corners (ctrl : ControlGrid ℝ) :
    evalP ctrl 0 0 = ctrl 0 0 ∧ evalP ctrl 1 1 = ctrl 3 3 ∧
      evalP ctrl 1 0 = ctrl 3 0 ∧ evalP ctrl 0 1 = ctrl 0 3 := by
  refine ⟨?_, ?_, ?_, ?_⟩ <;>
    simp [evalP, accumulate, idx4, bernstein3, Vec3.add, Vec3.smul, Vec3.zero]

/-- C5: for every control grid and every real `(u, v)`, the accumulation loop
of `evalP` computes the tensor-product bicubic Bezier sum `bezierSum`. -/
theorem evalP_eq_bezierSum (ctrl : ControlGrid ℝ) (u v : ℝ) :
    evalP ctrl u v = bezierSum ctrl u v := by
  simp only [evalP, bezierSum, accumulate_eq_sum, bernstein3_closed_form]

/-! ## Lists built by nested append loops -/

/-- A loop that appends `f x` to an accumulator for each `x` of `l` yields the
initial accumulator followed by the concatenation of all `f x`. -/
theorem foldl_append_eq_flatten {α β : Type} (f : β → List α) (l : List β) (init : List α) :
    l.foldl (fun acc x => acc ++ f x) init = init ++ (l.map f).flatten := by
  induction l generalizing init with
  | nil => simp
  | cons a l ih => simp [ih, List.append_assoc]

/-- Length of a concatenation of `n` blocks of equal length `m`. -/
theorem length_flatten_uniform {α : Type} (f : ℕ → List α) (m : ℕ)
    (hf : ∀ j, (f j).length = m) (n : ℕ) :
    ((List.range n).map f).flatten.length = n * m := by
  induction n with
  | zero => simp
  | succ n ih =>
    rw [List.range_succ, List.map_append, List.flatten_append, List.length_append, ih]
    simp [hf, Nat.succ_mul]

/-- In a concatenation of `n` blocks of equal length `m`, the entry at
position `j * m + k` is entry `k` of block `j`. -/
theorem getElem?_flatten_uniform {α : Type} (f : ℕ → List α) (m : ℕ)
    (hf : ∀ j, (f j).length = m) (n j k : ℕ) (hj : j < n) (hk : k < m) :
    ((List.range n).map f).flatten[j * m + k]? = (f j)[k]? := by
  induction n with
  | zero => omega
  | succ n ih =>
    rw [List.range_succ, List.map_append, List.flatten_append]
    have hlen := length_flatten_uniform f m hf n
    rcases Nat.lt_succ_iff_lt_or_eq.mp hj with hlt | heq
    · have hpos : j * m + k < n * m := by
        calc j * m + k < j * m + m := by omega
          _ = (j + 1) * m := by ring
          _ ≤ n * m := Nat.mul_le_mul_right m hlt
      rw [List.getElem?_append_left (by rw [hlen]; exact hpos)]
      exact ih hlt
    · subst heq
      rw [List.getElem?_append_right (by rw [hlen]; omega), hlen]
      simp

/-- Every entry of a concatenation of blocks over `0 .. n-1` lies in one of
the blocks. -/
theorem mem_flatten_range {α : Type} (f : ℕ → List α) (n : ℕ) (x : α) :
    x ∈ ((List.range n).map f).flatten ↔ ∃ j, j < n ∧ x ∈ f j := by
  simp only [List.mem_flatten, List.mem_map, List.mem_range]
  constructor
  · rintro ⟨l, ⟨j, hj, rfl⟩, hx⟩
    exact ⟨j, hj, hx⟩
  · rintro ⟨j, hj, hx⟩
    exact ⟨f j, ⟨j, hj, rfl⟩, hx⟩

/-! ## The two buffers of `buildMesh` as concatenations -/

/-- The vertex buffer: row `j` after row `j - 1`, sample `i` after sample
`i - 1` within a row. -/
theorem buildMesh_verts_eq {F : Type} [LinearOrderedField F] (sqrtf : F → F)
    (ctrl : ControlGrid F) (N : ℕ) :
    (buildMesh sqrtf ctrl N).verts =
      ((List.range N).map (fun j =>
        ((List.range N).map (fun i => [meshVertex sqrtf ctrl N i j])).flatten)).flatten := by
  simp only [buildMesh, foldl_append_eq_flatten, List.nil_append]

/-- The index buffer: cell row `j` after cell row `j - 1`, cell `i` after
cell `i - 1` within a row. -/
theorem buildMesh_inds_eq {F : Type} [LinearOrderedField F] (sqrtf : F → F)
    (ctrl : ControlGrid F) (N : ℕ) :
    (buildMesh sqrtf ctrl N).inds =
      ((List.range (N - 1)).map (fun j =>
        ((List.range (N - 1)).map (fun i => cellIndices N i j)).flatten)).flatten := by
  simp only [buildMesh, foldl_append_eq_flatten, List.nil_append]

/-- Number of vertices, for any resolution. -/
theorem buildMesh_verts_length {F : Type} [LinearOrderedField F] (sqrtf : F → F)
    (ctrl : ControlGrid F) (N : ℕ) :
    (buildMesh sqrtf ctrl N).verts.length = N * N := by
  rw [buildMesh_verts_eq]
  rw [length_flatten_uniform _ (N * 1)
    (fun j => length_flatten_uniform (fun i => [meshVertex sqrtf ctrl N i j]) 1
      (fun _ => rfl) N)]
  ring

/-- Number of indices, for any resolution. -/
theorem buildMesh_inds_length {F : Type} [LinearOrderedField F] (sqrtf : F → F)
    (ctrl : ControlGrid F) (N : ℕ) :
    (buildMesh sqrtf ctrl N).inds.length = 6 * (N - 1) * (N - 1) := by
  rw [buildMesh_inds_eq]
  rw [length_flatten_uniform _ ((N - 1) * 6)
    (fun j => length_flatten_uniform (fun i => cellIndices N i j) 6 (fun _ => rfl) (N - 1))]
  ring

/-- The vertex stored at position `j * N + i` is the one computed for sample
`(i, j)`. -/
theorem buildMesh_verts_getElem? {F : Type} [LinearOrderedField F] (sqrtf : F → F)
    (ctrl : ControlGrid F) (N i j : ℕ) (hi : i < N) (hj : j < N) :
    (buildMesh sqrtf ctrl N).verts[j * N + i]? = some (meshVertex sqrtf ctrl N i j) := by
  rw [buildMesh_verts_eq]
  have h1 := getElem?_flatten_uniform
    (fun j => ((List.range N).map (fun i => [meshVertex sqrtf ctrl N i j])).flatten) (N * 1)
    (fun j => length_flatten_uniform (fun i => [meshVertex sqrtf ctrl N i j]) 1
      (fun _ => rfl) N) N j (i * 1 + 0) hj (by omega)
  have h2 := getElem?_flatten_uniform (fun i => [meshVertex sqrtf ctrl N i j]) 1
    (fun _ => rfl) N i 0 hi (by omega)
  simp only [Nat.mul_one, Nat.add_zero] at h1 h2
  rw [h1, h2]
  rfl

/-- The index stored at position `6 * (j * (N - 1) + i) + k` is entry `k` of
the six indices computed for cell `(i, j)`. -/
theorem buildMesh_inds_getElem? {F : Type} [LinearOrderedField F] (sqrtf : F → F)
    (ctrl : ControlGrid F) (N i j k : ℕ) (hi : i < N - 1) (hj : j < N - 1) (hk : k < 6) :
    (buildMesh sqrtf ctrl N).inds[6 * (j * (N - 1) + i) + k]? = (cellIndices N i j)[k]? := by
  rw [buildMesh_inds_eq]
  have h1 := getElem?_flatten_uniform
    (fun j => ((List.range (N - 1)).map (fun i => cellIndices N i j)).flatten) ((N - 1) * 6)
    (fun j => length_flatten_uniform (fun i => cellIndices N i j) 6 (fun _ => rfl) (N - 1))
    (N - 1) j (i * 6 + k) hj
    (by
      calc i * 6 + k < i * 6 + 6 := by omega
        _ = (i + 1) * 6 := by ring
        _ ≤ (N - 1) * 6 := Nat.mul_le_mul_right 6 hi)
  have h2 := getElem?_flatten_uniform (fun i => cellIndices N i j) 6
    (fun _ => rfl) (N - 1) i k hi hk
  have e : 6 * (j * (N - 1) + i) + k = j * ((N - 1) * 6) + (i * 6 + k) := by ring
  rw [e, h1, h2]

/-- Every emitted vertex is the one computed for some sample `(i, j)` of the
grid. -/
theorem buildMesh_verts_mem {F : Type} [LinearOrderedField F] (sqrtf : F → F)
    (ctrl : ControlGrid F) (N : ℕ) (vt : Vertex F)
    (h : vt ∈ (buildMesh sqrtf ctrl N).verts) :
    ∃ i j, i < N ∧ j < N ∧ vt = meshVertex sqrtf ctrl N i j := by
  rw [buildMesh_verts_eq, mem_flatten_range] at h
  obtain ⟨j, hj, h⟩ := h
  rw [mem_flatten_range] at h
  obtain ⟨i, hi, h⟩ := h
  exact ⟨i, j, hi, hj, List.mem_singleton.mp h⟩

/-- Every emitted index belongs to the six indices of some cell `(i, j)`. -/
theorem buildMesh_inds_mem {F : Type} [LinearOrderedField F] (sqrtf : F → F)
    (ctrl : ControlGrid F) (N : ℕ) (x : ℕ)
    (h : x ∈ (buildMesh sqrtf ctrl N).inds) :
    ∃ i j, i < N - 1 ∧ j < N - 1 ∧ x ∈ cellIndices N i j := by
  rw [buildMesh_inds_eq, mem_flatten_range] at h
  obtain ⟨j, hj, h⟩ := h
  rw [mem_flatten_range] at h
  obtain ⟨i, hi, h⟩ := h
  exact ⟨i, j, hi, hj, h⟩

/-- Up to resolution 46340, which covers the range 4..128 the program keeps
`RES` in, every emitted index is below `2^31`: the `int` product `j * RES`
and the `unsigned int` sums of the index loop stay within 32-bit range. -/
theorem buildMesh_inds_fit_int {F : Type} [LinearOrderedField F] (sqrtf : F → F)
    (ctrl : ControlGrid F) (N : ℕ) (hN : N ≤ 46340) (x : ℕ)
    (h : x ∈ (buildMesh sqrtf ctrl N).inds) : x < 2 ^ 31 := by
  obtain ⟨i, j, hi, hj, hmem⟩ := buildMesh_inds_mem sqrtf ctrl N x h
  have hle : x ≤ j * N + i + N + 1 := by
    simp only [cellIndices, List.mem_cons, List.mem_singleton, List.not_mem_nil, or_false] at hmem
    omega
  have hrow : (j + 2) * N ≤ N * N := Nat.mul_le_mul_right N (by omega)
  have hexp : (j + 2) * N = j * N + 2 * N := by ring
  have hsq : N * N ≤ 46340 * 46340 := Nat.mul_le_mul hN hN
  omega

/-- When the length of `v` exceeds the threshold, `normalize` divides by it
and the result has unit length. -/
theorem normalize_unit_length (v : Vec3 ℝ) (h : Real.sqrt (dotp v v) > 1 / 1000000) :
    (normalize Real.sqrt v).x ^ 2 + (normalize Real.sqrt v).y ^ 2
      + (normalize Real.sqrt v).z ^ 2 = 1 := by
  have hnn : 0 ≤ dotp v v := by
    unfold dotp
    nlinarith [mul_self_nonneg v.x, mul_self_nonneg v.y, mul_self_nonneg v.z]
  have hsq : Real.sqrt (dotp v v) * Real.sqrt (dotp v v) = dotp v v :=
    Real.mul_self_sqrt hnn
  have hL : Real.sqrt (dotp v v) ≠ 0 := by
    have : (0 : ℝ) < 1 / 1000000 := by norm_num
    exact ne_of_gt (lt_trans this h)
  simp only [normalize, if_pos h]
  generalize Real.sqrt (dotp v v) = L at hsq hL
  field_simp
  unfold dotp at hsq
  linear_combination (-1 : ℝ) * hsq

/-! ## The default grid at the corner sample `(0, 0)` -/

/-- On the default grid, `Pu × Pv` at `(0, 0)` is `(0, 0, 9)`. -/
theorem crossp_default_origin :
    crossp (evalPu setDefaultControlPoints (0 : ℝ) 0) (evalPv setDefaultControlPoints (0 : ℝ) 0)
      = ⟨0, 0, 9⟩ := by
  simp [evalPu, evalPv, accumulate, idx4, bernstein3, bernstein3_deriv, crossp, Vec3.add,
    Vec3.smul, Vec3.zero, setDefaultControlPoints, defaultTable]
  norm_num

/-- The square root met when normalising `(0, 0, 9)`. -/
theorem sqrt_eighty_one : Real.sqrt 81 = 9 := by
  rw [show (81 : ℝ) = 9 ^ 2 by norm_num]
  exact Real.sqrt_sq (by norm_num)

/-- On the default grid at resolution 2, the vertex computed for sample
`(0, 0)`: the corner control point with normal `(0, 0, 1)`. -/
theorem meshVertex_default_origin :
    meshVertex Real.sqrt setDefaultControlPoints 2 0 0 = ⟨-3/2, -3/2, 0, 0, 0, 1, 0, 0⟩ := by
  have hP : evalP setDefaultControlPoints (0 : ℝ) 0 = ⟨-3/2, -3/2, 0⟩ := by
    simp [evalP, accumulate, idx4, bernstein3, Vec3.add, Vec3.smul, Vec3.zero,
      setDefaultControlPoints, defaultTable]
  simp only [meshVertex, Nat.cast_zero, zero_div, crossp_default_origin, hP, normalize, dotp]
  norm_num [sqrt_eighty_one]

/-! ## Properties of the mesh builder -/

/-- C6: for every resolution `N ≥ 2` and every control grid, `buildMesh`
produces exactly `N · N` vertices and exactly `6 · (N-1) · (N-1)` indices. -/
theorem buildMesh_counts (ctrl : ControlGrid ℝ) (N : ℕ) (hN : 2 ≤ N) :
    ((buildMesh Real.sqrt ctrl N).verts.length : ℤ) = (N : ℤ) * N ∧
      ((buildMesh Real.sqrt ctrl N).inds.length : ℤ) = 6 * ((N : ℤ) - 1) * ((N : ℤ) - 1) := by
  rw [buildMesh_verts_length, buildMesh_inds_length]
  have h1 : 1 ≤ N := by omega
  constructor
  · push_cast; ring
  · push_cast [Nat.cast_sub h1]; ring

/-- The statement of C6 at the default grid and resolution 4: 16 vertices and
54 indices. -/
theorem buildMesh_counts_witness :
    2 ≤ 4 ∧
      ((buildMesh Real.sqrt setDefaultControlPoints 4).verts.length : ℤ) = (4 : ℕ) * (4 : ℕ) ∧
      ((buildMesh Real.sqrt setDefaultControlPoints 4).inds.length : ℤ)
        = 6 * (((4 : ℕ) : ℤ) - 1) * (((4 : ℕ) : ℤ) - 1) :=
  ⟨by decide, buildMesh_counts setDefaultControlPoints 4 (by decide)⟩

/-- C7: for every resolution `N ≥ 2`, every index emitted by `buildMesh` is
strictly less than the number of vertices `N · N`. -/
theorem buildMesh_index_lt (ctrl : ControlGrid ℝ) (N : ℕ) (hN : 2 ≤ N) (x : ℕ)
    (hx : x ∈ (buildMesh Real.sqrt ctrl N).inds) :
    x < N * N ∧ x < (buildMesh Real.sqrt ctrl N).verts.length := by
  rw [buildMesh_verts_length]
  obtain ⟨i, j, hi, hj, hmem⟩ := buildMesh_inds_mem Real.sqrt ctrl N x hx
  have hle : x ≤ j * N + i + N + 1 := by
    simp only [cellIndices, List.mem_cons, List.mem_singleton, List.not_mem_nil, or_false] at hmem
    omega
  have hrow : (j + 2) * N ≤ N * N := Nat.mul_le_mul_right N (by omega)
  have hexp : (j + 2) * N = j * N + 2 * N := by ring
  have : x < N * N := by omega
  exact ⟨this, this⟩

/-- The statement of C7 at resolution 3: the index 8 is emitted and is below
the 9 vertices. -/
theorem buildMesh_index_lt_witness :
    2 ≤ 3 ∧ 8 ∈ (buildMesh Real.sqrt setDefaultControlPoints 3).inds ∧
      8 < 3 * 3 ∧ 8 < (buildMesh Real.sqrt setDefaultControlPoints 3).verts.length :=
  have hmem : 8 ∈ (buildMesh Real.sqrt setDefaultControlPoints 3).inds := by
    rw [buildMesh_inds_eq]; decide
  ⟨by decide, hmem, buildMesh_index_lt setDefaultControlPoints 3 (by decide) 8 hmem⟩

/-- C8: for every `N ≥ 2` and all `i, j < N`, the vertex stored at position
`j · N + i` has `uv = (i/(N-1), j/(N-1))`, position `evalP(u, v)` and normal
`normalize(crossp(evalPu(u, v), evalPv(u, v)))`, the cross product being taken
in the order `Pu × Pv`. -/
theorem buildMesh_vertex_at (ctrl : ControlGrid ℝ) (N i j : ℕ) (u v : ℝ) (hN : 2 ≤ N)
    (hi : i < N) (hj : j < N) (hu : u = (i : ℝ) / ((N : ℝ) - 1))
    (hv : v = (j : ℝ) / ((N : ℝ) - 1)) :
    (buildMesh Real.sqrt ctrl N).verts[j * N + i]? = some
      { px := (evalP ctrl u v).x, py := (evalP ctrl u v).y, pz := (evalP ctrl u v).z,
        nx := (normalize Real.sqrt (crossp (evalPu ctrl u v) (evalPv ctrl u v))).x,
        ny := (normalize Real.sqrt (crossp (evalPu ctrl u v) (evalPv ctrl u v))).y,
        nz := (normalize Real.sqrt (crossp (evalPu ctrl u v) (evalPv ctrl u v))).z,
        u := u, v := v } := by
  have h1 : 1 ≤ N := by omega
  have hc : ((N - 1 : ℕ) : ℝ) = (N : ℝ) - 1 := by
    rw [Nat.cast_sub h1, Nat.cast_one]
  rw [buildMesh_verts_getElem? Real.sqrt ctrl N i j hi hj]
  simp only [meshVertex, hc, hu, hv]

/-- The statement of C8 at resolution 2 and sample `(1, 0)`, stored at
position 1 with `uv = (1, 0)`. -/
theorem buildMesh_vertex_at_witness :
    (buildMesh Real.sqrt setDefaultControlPoints 2).verts[0 * 2 + 1]? = some
      { px := (evalP setDefaultControlPoints (1 : ℝ) 0).x,
        py := (evalP setDefaultControlPoints (1 : ℝ) 0).y,
        pz := (evalP setDefaultControlPoints (1 : ℝ) 0).z,
        nx := (normalize Real.sqrt (crossp (evalPu setDefaultControlPoints (1 : ℝ) 0)
          (evalPv setDefaultControlPoints (1 : ℝ) 0))).x,
        ny := (normalize Real.sqrt (crossp (evalPu setDefaultControlPoints (1 : ℝ) 0)
          (evalPv setDefaultControlPoints (1 : ℝ) 0))).y,
        nz := (normalize Real.sqrt (crossp (evalPu setDefaultControlPoints (1 : ℝ) 0)
          (evalPv setDefaultControlPoints (1 : ℝ) 0))).z,
        u := 1, v := 0 } :=
  buildMesh_vertex_at setDefaultControlPoints 2 1 0 1 0 (by decide) (by decide) (by decide)
    (by norm_num) (by norm_num)

/-- C9: for every `N ≥ 2` and every cell `(i, j)` with `i, j < N - 1`, the six
indices at positions `6 · (j · (N-1) + i) .. + 5` of the index list are, with
`a = j · N + i`: `a, a+1, a+N+1` followed by `a, a+N+1, a+N`. -/
theorem buildMesh_cell_indices (ctrl : ControlGrid ℝ) (N i j : ℕ) (hN : 2 ≤ N)
    (hi : i < N - 1) (hj : j < N - 1) :
    (buildMesh Real.sqrt ctrl N).inds[6 * (j * (N - 1) + i)]? = some (j * N + i) ∧
      (buildMesh Real.sqrt ctrl N).inds[6 * (j * (N - 1) + i) + 1]? = some (j * N + i + 1) ∧
      (buildMesh Real.sqrt ctrl N).inds[6 * (j * (N - 1) + i) + 2]?
        = some (j * N + i + N + 1) ∧
      (buildMesh Real.sqrt ctrl N).inds[6 * (j * (N - 1) + i) + 3]? = some (j * N + i) ∧
      (buildMesh Real.sqrt ctrl N).inds[6 * (j * (N - 1) + i) + 4]?
        = some (j * N + i + N + 1) ∧
      (buildMesh Real.sqrt ctrl N).inds[6 * (j * (N - 1) + i) + 5]? = some (j * N + i + N) := by
  have h := fun k hk => buildMesh_inds_getElem? Real.sqrt ctrl N i j k hi hj hk
  refine ⟨?_, ?_, ?_, ?_, ?_, ?_⟩
  · rw [← Nat.add_zero (6 * (j * (N - 1) + i)), h 0 (by decide)]; rfl
  · rw [h 1 (by decide)]; rfl
  · rw [h 2 (by decide)]; rfl
  · rw [h 3 (by decide)]; rfl
  · rw [h 4 (by decide)]; rfl
  · rw [h 5 (by decide)]; rfl

/-- The statement of C9 at resolution 3 and cell `(1, 1)`: the last six
indices are `4, 5, 8, 4, 8, 7`. -/
theorem buildMesh_cell_indices_witness :
    (buildMesh Real.sqrt setDefaultControlPoints 3).inds[6 * (1 * (3 - 1) + 1)]?
        = some (1 * 3 + 1) ∧
      (buildMesh Real.sqrt setDefaultControlPoints 3).inds[6 * (1 * (3 - 1) + 1) + 1]?
        = some (1 * 3 + 1 + 1) ∧
      (buildMesh Real.sqrt setDefaultControlPoints 3).inds[6 * (1 * (3 - 1) + 1) + 2]?
        = some (1 * 3 + 1 + 3 + 1) ∧
      (buildMesh Real.sqrt setDefaultControlPoints 3).inds[6 * (1 * (3 - 1) + 1) + 3]?
        = some (1 * 3 + 1) ∧
      (buildMesh Real.sqrt setDefaultControlPoints 3).inds[6 * (1 * (3 - 1) + 1) + 4]?
        = some (1 * 3 + 1 + 3 + 1) ∧
      (buildMesh Real.sqrt setDefaultControlPoints 3).inds[6 * (1 * (3 - 1) + 1) + 5]?
        = some (1 * 3 + 1 + 3) :=
  buildMesh_cell_indices setDefaultControlPoints 3 1 1 (by decide) (by decide) (by decide)

/-- C10: for every control grid, every `N ≥ 2` and every vertex emitted by
`buildMesh`: if the length of `Pu × Pv` at the vertex's `(u, v)` is greater
than `1e-6`, the stored normal has unit length, `nx² + ny² + nz² = 1`. -/
theorem buildMesh_normal_unit (ctrl : ControlGrid ℝ) (N : ℕ) (hN : 2 ≤ N) (vt : Vertex ℝ)
    (hvt : vt ∈ (buildMesh Real.sqrt ctrl N).verts)
    (hlen : Real.sqrt (dotp (crossp (evalPu ctrl vt.u vt.v) (evalPv ctrl vt.u vt.v))
      (crossp (evalPu ctrl vt.u vt.v) (evalPv ctrl vt.u vt.v))) > 1 / 1000000) :
    vt.nx ^ 2 + vt.ny ^ 2 + vt.nz ^ 2 = 1 := by
  obtain ⟨i, j, _, _, rfl⟩ := buildMesh_verts_mem Real.sqrt ctrl N vt hvt
  exact normalize_unit_length _ hlen

/-- The statement of C10 on the default grid at resolution 2, for the first
emitted vertex: there `Pu × Pv = (0, 0, 9)` has length 9 and the stored normal
is `(0, 0, 1)`. -/
theorem buildMesh_normal_unit_witness :
    (⟨-3/2, -3/2, 0, 0, 0, 1, 0, 0⟩ : Vertex ℝ)
        ∈ (buildMesh Real.sqrt setDefaultControlPoints 2).verts ∧
      Real.sqrt (dotp
          (crossp (evalPu setDefaultControlPoints (0 : ℝ) 0)
            (evalPv setDefaultControlPoints (0 : ℝ) 0))
          (crossp (evalPu setDefaultControlPoints (0 : ℝ) 0)
            (evalPv setDefaultControlPoints (0 : ℝ) 0))) > 1 / 1000000 ∧
      (0 : ℝ) ^ 2 + 0 ^ 2 + 1 ^ 2 = 1 :=
  have hmem : (⟨-3/2, -3/2, 0, 0, 0, 1, 0, 0⟩ : Vertex ℝ)
      ∈ (buildMesh Real.sqrt setDefaultControlPoints 2).verts := by
    rw [← meshVertex_default_origin]
    exact List.getElem?_mem (buildMesh_verts_getElem? Real.sqrt setDefaultControlPoints 2 0 0
      (by decide) (by decide))
  have hlen : Real.sqrt (dotp
      (crossp (evalPu setDefaultControlPoints (0 : ℝ) 0)
        (evalPv setDefaultControlPoints (0 : ℝ) 0))
      (crossp (evalPu setDefaultControlPoints (0 : ℝ) 0)
        (evalPv setDefaultControlPoints (0 : ℝ) 0))) > 1 / 1000000 := by
    rw [crossp_default_origin]
    norm_num [dotp, sqrt_eighty_one]
  ⟨hmem, hlen, buildMesh_normal_unit setDefaultControlPoints 2 (by decide) _ hmem hlen⟩

/-! ## Loading: how the reads and the stream relate -/

/-- A failed read means that no complete triplet is at the head of the
stream. -/
theorem countTriplets_of_readTriplet_none {F : Type} (s : List (Option F))
    (h : readTriplet s = none) : countTriplets s = 0 := by
  rcases s with _ | ⟨_ | x, _ | ⟨_ | y, _ | ⟨_ | z, rest⟩⟩⟩ <;>
    simp [readTriplet, countTriplets] at h ⊢

/-- A successful read consumes the first triplet of the stream. -/
theorem countTriplets_of_readTriplet_some {F : Type} (s rest : List (Option F)) (p : Vec3 F)
    (h : readTriplet s = some (p, rest)) :
    countTriplets s = countTriplets rest + 1 ∧ tripletAt s 0 = some p ∧
      ∀ k, tripletAt s (k + 1) = tripletAt rest k := by
  rcases s with _ | ⟨_ | x, _ | ⟨_ | y, _ | ⟨_ | z, more⟩⟩⟩ <;>
    simp [readTriplet, countTriplets, tripletAt] at h ⊢
  obtain ⟨rfl, rfl⟩ := h
  simp

/-- The flag returned by the loops: `true` exactly when the stream holds a
complete triplet for every remaining pair. -/
theorem loadLoop_fst {F : Type} (pairs : List (Fin 4 × Fin 4)) (s : List (Option F))
    (ctrl : ControlGrid F) :
    (loadLoop pairs s ctrl).1 = decide (pairs.length ≤ countTriplets s) := by
  induction pairs generalizing s ctrl with
  | nil => simp [loadLoop]
  | cons q more ih =>
    obtain ⟨j, i⟩ := q
    rcases h : readTriplet s with _ | ⟨p, rest⟩
    · simp [loadLoop, h, countTriplets_of_readTriplet_none s h]
    · simp [loadLoop, h, ih, (countTriplets_of_readTriplet_some s rest p h).1]

/-- An entry whose pair is not among the pairs served by a complete triplet
keeps its value. -/
theorem loadLoop_snd_of_not_mem {F : Type} (pairs : List (Fin 4 × Fin 4))
    (s : List (Option F)) (ctrl : ControlGrid F) (a b : Fin 4)
    (h : (b, a) ∉ pairs.take (countTriplets s)) :
    (loadLoop pairs s ctrl).2 a b = ctrl a b := by
  induction pairs generalizing s ctrl with
  | nil => simp [loadLoop]
  | cons q more ih =>
    obtain ⟨j, i⟩ := q
    rcases hr : readTriplet s with _ | ⟨p, rest⟩
    · simp [loadLoop, hr]
    · have hc := (countTriplets_of_readTriplet_some s rest p hr).1
      rw [hc, List.take_succ_cons, List.mem_cons, not_or] at h
      simp only [loadLoop, hr]
      rw [ih rest (setCtrl ctrl i j p) h.2]
      have hne : ¬ (a = i ∧ b = j) := by
        rintro ⟨rfl, rfl⟩
        exact h.1 rfl
      simp [setCtrl, hne]

/-- The entry of pair number `k` receives triplet number `k`, when the pairs
are distinct and the stream holds more than `k` complete triplets. -/
theorem loadLoop_snd_of_getElem? {F : Type} (pairs : List (Fin 4 × Fin 4))
    (s : List (Option F)) (ctrl : ControlGrid F) (a b : Fin 4) (k : ℕ)
    (hnd : pairs.Nodup) (hk : k < countTriplets s) (hp : pairs[k]? = some (b, a)) :
    tripletAt s k = some ((loadLoop pairs s ctrl).2 a b) := by
  induction pairs generalizing s ctrl k with
  | nil => simp at hp
  | cons q more ih =>
    obtain ⟨j, i⟩ := q
    rcases hr : readTriplet s with _ | ⟨p, rest⟩
    · rw [countTriplets_of_readTriplet_none s hr] at hk
      omega
    · obtain ⟨hc, h0, hs⟩ := countTriplets_of_readTriplet_some s rest p hr
      simp only [loadLoop, hr]
      rw [List.nodup_cons] at hnd
      cases k with
      | zero =>
        simp only [List.getElem?_cons_zero, Option.some.injEq, Prod.mk.injEq] at hp
        obtain ⟨rfl, rfl⟩ := hp
        rw [h0, loadLoop_snd_of_not_mem more rest _ _ _
          (fun hm => hnd.1 (List.mem_of_mem_take hm))]
        simp [setCtrl]
      | succ k =>
        rw [hs k]
        exact ih rest _ k hnd.2 (by omega) (by simpa using hp)

/-- The pairs visited by the loading loops are distinct. -/
theorem loadOrder_nodup : loadOrder.Nodup := by decide

/-- The pair number `4 * j + i` visited by the loading loops is `(j, i)`. -/
theorem loadOrder_getElem? (i j : Fin 4) : loadOrder[4 * j.val + i.val]? = some (j, i) := by
  revert i j
  decide

/-- A pair visited at position `4 * j + i` or later is not among the first
`n` pairs when `n ≤ 4 * j + i`. -/
theorem loadOrder_not_mem_take (i j : Fin 4) (n : ℕ) (h : n ≤ 4 * j.val + i.val) :
    (j, i) ∉ loadOrder.take n := by
  have key : ∀ (i j : Fin 4) (m : Fin 16), m.val ≤ 4 * j.val + i.val →
      (j, i) ∉ loadOrder.take m.val := by decide
  have hn : n < 16 := by omega
  exact key i j ⟨n, hn⟩ h

/-- The effect of a load from an opened file on the flag and on each entry of
the grid. -/
theorem loadControlPointsFromFile_some {F : Type} (s : List (Option F)) (ctrl : ControlGrid F) :
    ((loadControlPointsFromFile (some s) ctrl).1 = decide (16 ≤ countTriplets s)) ∧
      ∀ i j : Fin 4, some ((loadControlPointsFromFile (some s) ctrl).2 i j) =
        if 4 * j.val + i.val < countTriplets s then tripletAt s (4 * j.val + i.val)
        else some (ctrl i j) := by
  constructor
  · simp only [loadControlPointsFromFile, loadLoop_fst]
    rfl
  · intro i j
    simp only [loadControlPointsFromFile]
    split_ifs with h
    · exact (loadLoop_snd_of_getElem? loadOrder s ctrl i j _ loadOrder_nodup h
        (loadOrder_getElem? i j)).symm
    · rw [loadLoop_snd_of_not_mem loadOrder s ctrl i j
        (loadOrder_not_mem_take i j _ (by omega))]

/-! ## Properties of loading and of start-up -/

/-- C13, as stated, fails: on a stream of sixteen triplets the load succeeds,
but `ctrl[1][0]` does not hold triplet number `4 · 1 + 0 = 4`; it holds
triplet number 1, `(3, 4, 5)`. -/
theorem load_row_major_counterexample :
    16 ≤ countTriplets sampleStream ∧
      (loadControlPointsFromFile (some sampleStream) (fun _ _ => Vec3.zero)).1 = true ∧
      tripletAt sampleStream (4 * 1 + 0)
        ≠ some ((loadControlPointsFromFile (some sampleStream) (fun _ _ => Vec3.zero)).2 1 0) ∧
      (loadControlPointsFromFile (some sampleStream) (fun _ _ => Vec3.zero)).2 1 0
        = ⟨3, 4, 5⟩ := by
  decide

/-- C13, amended: for every input holding at least 16 parseable triplets,
`loadControlPointsFromFile` returns `true` and triplet number `4 · j + i`
(0-based, in file order) becomes `ctrl[i][j]`, for all `i, j` in `0..3`. -/
theorem load_triplet_order {F : Type} (s : List (Option F)) (ctrl : ControlGrid F)
    (h : 16 ≤ countTriplets s) :
    (loadControlPointsFromFile (some s) ctrl).1 = true ∧
      ∀ i j : Fin 4, tripletAt s (4 * j.val + i.val)
        = some ((loadControlPointsFromFile (some s) ctrl).2 i j) := by
  obtain ⟨h1, h2⟩ := loadControlPointsFromFile_some s ctrl
  refine ⟨by rw [h1]; exact decide_eq_true h, fun i j => ?_⟩
  have hlt : 4 * j.val + i.val < countTriplets s := by omega
  rw [h2 i j, if_pos hlt]

/-- The statement of C13, amended, on the stream `0, 1, .., 47`. -/
theorem load_triplet_order_witness :
    16 ≤ countTriplets sampleStream ∧
      (loadControlPointsFromFile (some sampleStream) (fun _ _ => Vec3.zero)).1 = true ∧
      ∀ i j : Fin 4, tripletAt sampleStream (4 * j.val + i.val)
        = some ((loadControlPointsFromFile (some sampleStream) (fun _ _ => Vec3.zero)).2 i j) :=
  ⟨by decide, load_triplet_order sampleStream (fun _ _ => Vec3.zero) (by decide)⟩

/-- C14: if the control-point file is absent or yields fewer than 16
parseable triplets, `loadControlPointsFromFile` returns `false` and, after the
fallback of `main`, the control grid is the built-in default grid, and the
mesh is built from it. -/
theorem load_failure_falls_back (file : Option (List (Option ℝ))) (ctrl : ControlGrid ℝ)
    (h : ∀ s, file = some s → countTriplets s < 16) :
    (loadControlPointsFromFile file ctrl).1 = false ∧
      startupGrid file = setDefaultControlPoints ∧
      (startup Real.sqrt file).ctrl = setDefaultControlPoints ∧
      (startup Real.sqrt file).mesh = buildMesh Real.sqrt setDefaultControlPoints 32 := by
  have hfalse : ∀ c : ControlGrid ℝ, (loadControlPointsFromFile file c).1 = false := by
    intro c
    rcases file with _ | s
    · rfl
    · rw [(loadControlPointsFromFile_some s c).1]
      exact decide_eq_false (by have := h s rfl; omega)
  have hgrid : startupGrid file = setDefaultControlPoints := by
    simp [startupGrid, hfalse]
  refine ⟨hfalse ctrl, hgrid, ?_, ?_⟩
  · simp only [startup, hgrid]
  · simp only [startup, hgrid]

/-- The statement of C14 for a file that ends inside its second triplet. -/
theorem load_failure_falls_back_witness :
    (loadControlPointsFromFile (some [some 1, some 2, some 3, some 4, none])
        (fun _ _ => (Vec3.zero : Vec3 ℝ))).1 = false ∧
      startupGrid (some [some (1 : ℝ), some 2, some 3, some 4, none])
        = setDefaultControlPoints ∧
      (startup Real.sqrt (some [some 1, some 2, some 3, some 4, none])).ctrl
        = setDefaultControlPoints ∧
      (startup Real.sqrt (some [some 1, some 2, some 3, some 4, none])).mesh
        = buildMesh Real.sqrt setDefaultControlPoints 32 :=
  load_failure_falls_back (some [some 1, some 2, some 3, some 4, none]) (fun _ _ => Vec3.zero)
    (by
      intro s hs
      cases hs
      simp [countTriplets])

/-- C16, as stated, fails: a load from a stream that ends after one triplet
returns `false` and yet has replaced `ctrl[0][0]`. -/
theorem load_all_or_nothing_counterexample :
    (loadControlPointsFromFile (some shortStream) (fun _ _ => Vec3.zero)).1 = false ∧
      (loadControlPointsFromFile (some shortStream) (fun _ _ => Vec3.zero)).2 0 0 = ⟨1, 2, 3⟩ ∧
      (loadControlPointsFromFile (some shortStream) (fun _ _ => Vec3.zero)).2 0 0
        ≠ (fun _ _ => Vec3.zero : ControlGrid ℚ) 0 0 := by
  decide

/-- C16, amended: `setDefaultControlPoints` assigns all 16 entries from its
table; a load from a file that cannot be opened returns `false` and leaves the
grid as it was; a load from an opened file returns `true` exactly when the
file holds at least 16 parseable triplets, and in either case has replaced
the entries of the pairs served by the complete triplets at the head of the
file (entry `[i][j]` by triplet `4 · j + i`) and no other entry. -/
theorem load_writes_leading_triplets (s : List (Option ℝ)) (ctrl : ControlGrid ℝ) :
    (∀ i j : Fin 4, (setDefaultControlPoints : ControlGrid ℝ) i j
        = defaultTable ⟨j.val * 4 + i.val, by omega⟩) ∧
      loadControlPointsFromFile none ctrl = (false, ctrl) ∧
      ((loadControlPointsFromFile (some s) ctrl).1 = true ↔ 16 ≤ countTriplets s) ∧
      ∀ i j : Fin 4, some ((loadControlPointsFromFile (some s) ctrl).2 i j) =
        if 4 * j.val + i.val < countTriplets s then tripletAt s (4 * j.val + i.val)
        else some (ctrl i j) := by
  obtain ⟨h1, h2⟩ := loadControlPointsFromFile_some s ctrl
  refine ⟨fun _ _ => rfl, rfl, ?_, h2⟩
  rw [h1]
  exact decide_eq_true_iff

/-! ## The key handler keeps the mesh in step with the resolution -/

/-- The invariant of the event loop: the mesh is the one `buildMesh` makes
from the current grid at the current resolution, and `4 ≤ RES ≤ 128`. -/
theorem keys_invariant {F : Type} [LinearOrderedField F] (sqrtf : F → F) (st st1 : App F)
    (k : Char) (hm : st.mesh = buildMesh sqrtf st.ctrl st.RES) (hlo : 4 ≤ st.RES)
    (hhi : st.RES ≤ 128) (hk : keys sqrtf st k = some st1) :
    st1.mesh = buildMesh sqrtf st1.ctrl st1.RES ∧ 4 ≤ st1.RES ∧ st1.RES ≤ 128 := by
  unfold keys at hk
  split_ifs at hk <;> simp only [Option.some.injEq] at hk <;> subst hk <;>
    simp only [hm, true_and, and_self] <;> omega

/-- A key other than `q` and Esc does not end the program. -/
theorem keys_isSome {F : Type} [LinearOrderedField F] (sqrtf : F → F) (st : App F) (k : Char)
    (hk : k ≠ Char.ofNat 27 ∧ k ≠ 'q') : ∃ st1, keys sqrtf st k = some st1 := by
  unfold keys
  rw [if_neg (by tauto)]
  exact ⟨_, rfl⟩

/-- The invariant holds after any sequence of keys that reaches a state. -/
theorem runKeys_invariant {F : Type} [LinearOrderedField F] (sqrtf : F → F) (ks : List Char)
    (st st1 : App F) (hm : st.mesh = buildMesh sqrtf st.ctrl st.RES) (hlo : 4 ≤ st.RES)
    (hhi : st.RES ≤ 128) (hk : runKeys sqrtf st ks = some st1) :
    st1.mesh = buildMesh sqrtf st1.ctrl st1.RES ∧ 4 ≤ st1.RES ∧ st1.RES ≤ 128 := by
  induction ks generalizing st with
  | nil =>
    simp only [runKeys, Option.some.injEq] at hk
    subst hk
    exact ⟨hm, hlo, hhi⟩
  | cons k ks ih =>
    simp only [runKeys] at hk
    rcases h : keys sqrtf st k with _ | st2
    · simp [h] at hk
    · simp only [h] at hk
      obtain ⟨h1, h2, h3⟩ := keys_invariant sqrtf st st2 k hm hlo hhi h
      exact ih st2 h1 h2 h3 hk

/-- A sequence of keys without `q` and Esc reaches a state. -/
theorem runKeys_isSome {F : Type} [LinearOrderedField F] (sqrtf : F → F) (ks : List Char)
    (st : App F) (hks : ∀ k ∈ ks, k ≠ Char.ofNat 27 ∧ k ≠ 'q') :
    ∃ st1, runKeys sqrtf st ks = some st1 := by
  induction ks generalizing st with
  | nil => exact ⟨st, rfl⟩
  | cons k ks ih =>
    obtain ⟨st2, h2⟩ := keys_isSome sqrtf st k (hks k (List.mem_cons_self k ks))
    obtain ⟨st3, h3⟩ := ih st2 (fun c hc => hks c (List.mem_cons_of_mem k hc))
    exact ⟨st3, by simp only [runKeys, h2, h3]⟩

/-- C17: after the initial `buildMesh` and after every sequence of the keys
`+`, `=`, `-`, `_`, `w`, `s`, `t`, the program is in a state whose mesh matches
the current resolution: `verts.size() = RES · RES` and
`inds.size() = 6 · (RES-1) · (RES-1)`. -/
theorem keys_mesh_matches_resolution (file : Option (List (Option ℝ))) (ks : List Char)
    (hks : ∀ k ∈ ks, k ∈ ['+', '=', '-', '_', 'w', 's', 't']) :
    ∃ st, runKeys Real.sqrt (startup Real.sqrt file) ks = some st ∧
      (st.mesh.verts.length : ℤ) = (st.RES : ℤ) * st.RES ∧
      (st.mesh.inds.length : ℤ) = 6 * ((st.RES : ℤ) - 1) * ((st.RES : ℤ) - 1) := by
  have hne : ∀ k ∈ ks, k ≠ Char.ofNat 27 ∧ k ≠ 'q' := by
    intro k hk
    have := hks k hk
    simp only [List.mem_cons, List.mem_singleton, List.not_mem_nil, or_false] at this
    rcases this with h | h | h | h | h | h | h <;> subst h <;> decide
  obtain ⟨st, hst⟩ := runKeys_isSome Real.sqrt ks (startup Real.sqrt file) hne
  obtain ⟨hm, hlo, _⟩ := runKeys_invariant Real.sqrt ks (startup Real.sqrt file) st rfl
    (by simp [startup]) (by simp [startup]) hst
  refine ⟨st, hst, ?_, ?_⟩
  · rw [hm, buildMesh_verts_length]
    push_cast; ring
  · rw [hm, buildMesh_inds_length]
    have h1 : 1 ≤ st.RES := by omega
    push_cast [Nat.cast_sub h1]; ring

/-- The statement of C17 for the keys `+`, `w`, `-`, `-` after a start without
a control-point file. -/
theorem keys_mesh_matches_resolution_witness :
    ∃ st, runKeys Real.sqrt (startup Real.sqrt none) ['+', 'w', '-', '-'] = some st ∧
      (st.mesh.verts.length : ℤ) = (st.RES : ℤ) * st.RES ∧
      (st.mesh.inds.length : ℤ) = 6 * ((st.RES : ℤ) - 1) * ((st.RES : ℤ) - 1) :=
  keys_mesh_matches_resolution none ['+', 'w', '-', '-'] (by decide)

/-! ## Derivatives -/

/-- Each value written by `bernstein3_deriv` is the derivative of the
corresponding value written by `bernstein3`. -/
theorem bernstein3_hasDerivAt (k : Fin 4) (t : ℝ) :
    HasDerivAt (fun s : ℝ => bernstein3 s k) (bernstein3_deriv t k) t := by
  have hid : HasDerivAt (fun s : ℝ => s) 1 t := hasDerivAt_id t
  have hom : HasDerivAt (fun s : ℝ => 1 - s) (-1) t := by
    simpa using hid.const_sub 1
  have h3 : HasDerivAt (fun s : ℝ => 3 * s) 3 t := by
    simpa using hid.const_mul (3 : ℝ)
  fin_cases k
  · have h := (hom.mul hom).mul hom
    have e : bernstein3_deriv t 0 = (-1 * (1 - t) + (1 - t) * -1) * (1 - t)
        + (1 - t) * (1 - t) * -1 := by
      show -3 * (1 - t) * (1 - t) = _
      ring
    show HasDerivAt (fun s : ℝ => (1 - s) * (1 - s) * (1 - s)) (bernstein3_deriv t 0) t
    rw [e]
    exact h
  · have h := (h3.mul hom).mul hom
    have e : bernstein3_deriv t 1 = (3 * (1 - t) + 3 * t * -1) * (1 - t)
        + 3 * t * (1 - t) * -1 := by
      show 3 * (1 - t) * (1 - t) - 6 * t * (1 - t) = _
      ring
    show HasDerivAt (fun s : ℝ => 3 * s * (1 - s) * (1 - s)) (bernstein3_deriv t 1) t
    rw [e]
    exact h
  · have h := (h3.mul hid).mul hom
    have e : bernstein3_deriv t 2 = (3 * t + 3 * t * 1) * (1 - t) + 3 * t * t * -1 := by
      show 6 * t * (1 - t) - 3 * t * t = _
      ring
    show HasDerivAt (fun s : ℝ => 3 * s * s * (1 - s)) (bernstein3_deriv t 2) t
    rw [e]
    exact h
  · have h := (hid.mul hid).mul hid
    have e : bernstein3_deriv t 3 = (1 * t + t * 1) * t + t * t * 1 := by
      show 3 * t * t = _
      ring
    show HasDerivAt (fun s : ℝ => s * s * s) (bernstein3_deriv t 3) t
    rw [e]
    exact h

/-- A double sum `Σ_i Σ_j c i j * (a i s * b j)` has the derivative obtained
by differentiating each `a i`. -/
theorem hasDerivAt_sum_left (c : Fin 4 → Fin 4 → ℝ) (a : Fin 4 → ℝ → ℝ) (a1 b : Fin 4 → ℝ)
    (t : ℝ) (ha : ∀ i, HasDerivAt (a i) (a1 i) t) :
    HasDerivAt (fun s : ℝ => ∑ i : Fin 4, ∑ j : Fin 4, c i j * (a i s * b j))
      (∑ i : Fin 4, ∑ j : Fin 4, c i j * (a1 i * b j)) t := by
  apply HasDerivAt.sum
  intro i _
  apply HasDerivAt.sum
  intro j _
  exact ((ha i).mul_const (b j)).const_mul (c i j)

/-- A double sum `Σ_i Σ_j c i j * (a i * b j s)` has the derivative obtained
by differentiating each `b j`. -/
theorem hasDerivAt_sum_right (c : Fin 4 → Fin 4 → ℝ) (a : Fin 4 → ℝ) (b : Fin 4 → ℝ → ℝ)
    (b1 : Fin 4 → ℝ) (t : ℝ) (hb : ∀ j, HasDerivAt (b j) (b1 j) t) :
    HasDerivAt (fun s : ℝ => ∑ i : Fin 4, ∑ j : Fin 4, c i j * (a i * b j s))
      (∑ i : Fin 4, ∑ j : Fin 4, c i j * (a i * b1 j)) t := by
  apply HasDerivAt.sum
  intro i _
  apply HasDerivAt.sum
  intro j _
  exact ((hb j).const_mul (a i)).const_mul (c i j)

/-- C19: for every `k` in `0..3` and every real `t`, the `k`-th value written
by `bernstein3_deriv t` is the derivative with respect to `t` of the `k`-th
value written by `bernstein3 t`. -/
theorem bernstein3_deriv_is_derivative (k : Fin 4) (t : ℝ) :
    HasDerivAt (fun s : ℝ => bernstein3 s k) (bernstein3_deriv t k) t ∧
      deriv (fun s : ℝ => bernstein3 s k) t = bernstein3_deriv t k :=
  ⟨bernstein3_hasDerivAt k t, (bernstein3_hasDerivAt k t).deriv⟩

/-- C20: for every control grid and every real `(u, v)`, each component of
`evalPu(u, v)` is the partial derivative of that component of `evalP` with
respect to `u` at `(u, v)`, and each component of `evalPv(u, v)` is the
partial derivative with respect to `v`. -/
theorem evalPu_evalPv_are_partials (ctrl : ControlGrid ℝ) (u v : ℝ) :
    (HasDerivAt (fun s : ℝ => (evalP ctrl s v).x) (evalPu ctrl u v).x u ∧
      HasDerivAt (fun s : ℝ => (evalP ctrl s v).y) (evalPu ctrl u v).y u ∧
      HasDerivAt (fun s : ℝ => (evalP ctrl s v).z) (evalPu ctrl u v).z u) ∧
    (HasDerivAt (fun s : ℝ => (evalP ctrl u s).x) (evalPv ctrl u v).x v ∧
      HasDerivAt (fun s : ℝ => (evalP ctrl u s).y) (evalPv ctrl u v).y v ∧
      HasDerivAt (fun s : ℝ => (evalP ctrl u s).z) (evalPv ctrl u v).z v) := by
  simp only [evalP, evalPu, evalPv, accumulate_eq_sum]
  refine ⟨⟨?_, ?_, ?_⟩, ⟨?_, ?_, ?_⟩⟩
  · exact hasDerivAt_sum_left _ (fun i s => bernstein3 s i) _ _ u
      (fun i => bernstein3_hasDerivAt i u)
  · exact hasDerivAt_sum_left _ (fun i s => bernstein3 s i) _ _ u
      (fun i => bernstein3_hasDerivAt i u)
  · exact hasDerivAt_sum_left _ (fun i s => bernstein3 s i) _ _ u
      (fun i => bernstein3_hasDerivAt i u)
  · exact hasDerivAt_sum_right _ _ (fun j s => bernstein3 s j) _ v
      (fun j => bernstein3_hasDerivAt j v)
  · exact hasDerivAt_sum_right _ _ (fun j s => bernstein3 s j) _ v
      (fun j => bernstein3_hasDerivAt j v)
  · exact hasDerivAt_sum_right _ _ (fun j s => bernstein3 s j) _ v
      (fun j => bernstein3_hasDerivAt j v)

/-! ## The default grid -/

/-- The entries of the default grid: `x` and `y` are evenly spaced by 1 from
`-1.5`, and `z` is `1.2` at the four interior points and `0` on the
boundary. -/
theorem setDefaultControlPoints_apply (i j : Fin 4) :
    (setDefaultControlPoints i j : Vec3 ℝ)
      = ⟨(i.val : ℝ) - 3 / 2, (j.val : ℝ) - 3 / 2,
          if (i.val = 1 ∨ i.val = 2) ∧ (j.val = 1 ∨ j.val = 2) then 6 / 5 else 0⟩ := by
  fin_cases i <;> fin_cases j <;>
    (show Vec3.mk _ _ _ = _
     simp only [Vec3.mk.injEq]
     refine ⟨by norm_num, by norm_num, by simp⟩)

/-- The surface of the default grid in closed form. -/
theorem evalP_default (u v : ℝ) :
    evalP setDefaultControlPoints u v
      = ⟨3 * u - 3 / 2, 3 * v - 3 / 2, 54 / 5 * u * (1 - u) * v * (1 - v)⟩ := by
  simp only [evalP, accumulate_eq_sum, Fin.sum_univ_four, setDefaultControlPoints_apply,
    Vec3.mk.injEq]
  simp [bernstein3, show ((3 : Fin 4) : ℕ) = 3 from rfl]
  refine ⟨?_, ?_, ?_⟩ <;> ring

/-- C15: with the default control grid and resolution 4, `buildMesh` yields 16
vertices and 54 indices, and every vertex, at its `(u, v)`, has
`z = 1.2 · (B1(u) + B2(u)) · (B1(v) + B2(v)) = 10.8 · u(1-u) · v(1-v)`,
`x = 3u - 1.5` and `y = 3v - 1.5`. -/
theorem default_mesh_at_resolution_four :
    (∀ i j : Fin 4, ((setDefaultControlPoints i j : Vec3 ℝ)).z
        = if (i.val = 1 ∨ i.val = 2) ∧ (j.val = 1 ∨ j.val = 2) then 6 / 5 else 0) ∧
      (buildMesh Real.sqrt setDefaultControlPoints 4).verts.length = 16 ∧
      (buildMesh Real.sqrt setDefaultControlPoints 4).inds.length = 54 ∧
      ∀ vt ∈ (buildMesh Real.sqrt setDefaultControlPoints 4).verts,
        vt.pz = 6 / 5 * (bernstein3 vt.u 1 + bernstein3 vt.u 2)
          * (bernstein3 vt.v 1 + bernstein3 vt.v 2) ∧
        vt.pz = 54 / 5 * vt.u * (1 - vt.u) * vt.v * (1 - vt.v) ∧
        vt.px = 3 * vt.u - 3 / 2 ∧ vt.py = 3 * vt.v - 3 / 2 := by
  refine ⟨?_, ?_, ?_, ?_⟩
  · intro i j
    rw [setDefaultControlPoints_apply]
  · rw [buildMesh_verts_length]
  · rw [buildMesh_inds_length]
  · intro vt hvt
    obtain ⟨i, j, _, _, rfl⟩ := buildMesh_verts_mem Real.sqrt _ 4 vt hvt
    simp only [meshVertex, evalP_default]
    refine ⟨?_, trivial, trivial, trivial⟩
    simp [bernstein3]
    ring

end Bezier

namespace Picking

/-! ## Properties of picking -/

/-- The value of `picked` that `pickAt` computes is the decision `identify`
on the pixel it holds after the read-back. -/
theorem pickAt_picked {F : Type} [Field F] (RAND_MAX : ℕ) (st : PickApp F) (mx my : ℤ)
    (p : Pixel) (rnd : Fin 3 → ℕ) :
    (pickAt RAND_MAX st mx my (some p) rnd).picked = identify p := by
  unfold pickAt
  simp only
  split_ifs <;> rfl

/-- A pixel that differs from the three registered colours is decided as
`-1`. -/
theorem identify_of_ne (p : Pixel) (h : ∀ id : Fin 3, p ≠ pickColorBytes id) :
    identify p = -1 := by
  have hne : ∀ id : Fin 3, ¬ (p 0 = pickColorBytes id 0 ∧ p 1 = pickColorBytes id 1
      ∧ p 2 = pickColorBytes id 2) := by
    rintro id ⟨h0, h1, h2⟩
    apply h id
    funext k
    fin_cases k
    · exact h0
    · exact h1
    · exact h2
  unfold identify
  rw [if_neg (hne 0), if_neg (hne 1), if_neg (hne 2)]

/-- C11: the three registered pick colours are pairwise distinct, and for
every `id` in `0..2` the decision of `pickAt` on the pixel
`pickColorBytes[id]` is `picked = id`. -/
theorem pick_colors_decode (RAND_MAX : ℕ) (st : PickApp ℝ) (mx my : ℤ) (rnd : Fin 3 → ℕ) :
    (∀ a b : Fin 3, a ≠ b → pickColorBytes a ≠ pickColorBytes b) ∧
      ∀ id : Fin 3,
        (pickAt RAND_MAX st mx my (some (pickColorBytes id)) rnd).picked = (id.val : ℤ) := by
  constructor
  · decide
  · intro id
    rw [pickAt_picked]
    revert id
    decide

/-- C12: for every read-back pixel that is not one of the three registered
pick colours, `pickAt` picks no object (`picked = -1`) and leaves the state,
with all nine object colour components, unchanged; the clear colour
`(0, 0, 0)` is not a registered colour. -/
theorem pick_mismatch_picks_nothing (RAND_MAX : ℕ) (st : PickApp ℝ) (mx my : ℤ)
    (rnd : Fin 3 → ℕ) (p : Pixel) (h : ∀ id : Fin 3, p ≠ pickColorBytes id) :
    (pickAt RAND_MAX st mx my (some p) rnd).picked = -1 ∧
      (pickAt RAND_MAX st mx my (some p) rnd).state.objColor = st.objColor ∧
      (pickAt RAND_MAX st mx my (some p) rnd).state = st ∧
      ∀ id : Fin 3, pickColorBytes id ≠ ![0, 0, 0] := by
  have hid := identify_of_ne p h
  have hst : (pickAt RAND_MAX st mx my (some p) rnd).state = st := by
    unfold pickAt
    simp only [hid]
    rfl
  refine ⟨by rw [pickAt_picked, hid], by rw [hst], hst, by decide⟩

/-- The statement of C12 for the read-back pixel `(0, 0, 0)` of the cleared
background, in the start-up state. -/
theorem pick_mismatch_picks_nothing_witness :
    (pickAt 32767 (initialApp : PickApp ℝ) 5 7 (some ![0, 0, 0]) (fun _ => 1)).picked = -1 ∧
      (pickAt 32767 (initialApp : PickApp ℝ) 5 7 (some ![0, 0, 0]) (fun _ => 1)).state.objColor
        = (initialApp : PickApp ℝ).objColor ∧
      (pickAt 32767 (initialApp : PickApp ℝ) 5 7 (some ![0, 0, 0]) (fun _ => 1)).state
        = initialApp ∧
      ∀ id : Fin 3, pickColorBytes id ≠ ![0, 0, 0] :=
  pick_mismatch_picks_nothing 32767 initialApp 5 7 (fun _ => 1) ![0, 0, 0] (by decide)

/-- C18, as stated, fails: after `buildPickingFBO` has returned `false`, a
`pickAt` call is not a no-op; it renders into the picking target and issues
`glReadPixels` at the cursor. -/
theorem pickAt_after_failed_build_counterexample :
    (buildPickingFBO (initialApp : PickApp ℚ) 0).1 = false ∧
      GLCall.readPixels 5 (700 - 1 - 7)
        ∈ (pickAt 32767 (buildPickingFBO (initialApp : PickApp ℚ) 0).2 5 7 none
            (fun _ => 1)).calls ∧
      (pickAt 32767 (buildPickingFBO (initialApp : PickApp ℚ) 0).2 5 7 none (fun _ => 1)).calls
        ≠ [] := by
  decide

/-- C18, amended: when `buildPickingFBO` returns `false` the failure is only
reported and picking is not disabled: every later `pickAt` call still renders
into the picking target and issues `glReadPixels` at the cursor, whatever the
read-back delivers.  Its pixel buffer starts as `(0, 0, 0)`, which is not a
registered colour, so a call whose read-back delivers no data picks no object
and leaves the state, with all object colours, unchanged. -/
theorem pickAt_after_failed_build (RAND_MAX : ℕ) (st0 : PickApp ℝ) (status : ℕ) (mx my : ℤ)
    (readback : Option Pixel) (rnd : Fin 3 → ℕ)
    (h : (buildPickingFBO st0 status).1 = false) :
    GLCall.drawScene true
        ∈ (pickAt RAND_MAX (buildPickingFBO st0 status).2 mx my readback rnd).calls ∧
      GLCall.readPixels mx ((buildPickingFBO st0 status).2.winH - 1 - my)
        ∈ (pickAt RAND_MAX (buildPickingFBO st0 status).2 mx my readback rnd).calls ∧
      (pickAt RAND_MAX (buildPickingFBO st0 status).2 mx my none rnd).picked = -1 ∧
      (pickAt RAND_MAX (buildPickingFBO st0 status).2 mx my none rnd).state
        = (buildPickingFBO st0 status).2 := by
  have hcalls : ∀ (st : PickApp ℝ) (c : GLCall),
      c ∈ [GLCall.bindPickFBO, GLCall.viewport st.winW st.winH, GLCall.clear,
        GLCall.drawScene true, GLCall.readPixels mx (st.winH - 1 - my), GLCall.bindDefault] →
      c ∈ (pickAt RAND_MAX st mx my readback rnd).calls := by
    intro st c hc
    unfold pickAt
    simp only
    split_ifs
    · exact List.mem_append_left _ hc
    · exact hc
  have hzero : identify ![0, 0, 0] = -1 := by decide
  refine ⟨hcalls _ _ (by simp), hcalls _ _ (by simp), ?_, ?_⟩
  · unfold pickAt
    simp only [hzero]
    rfl
  · unfold pickAt
    simp only [hzero]
    rfl

/-- The statement of C18, amended, for a first target whose status is not
`GL_FRAMEBUFFER_COMPLETE`, and a click at `(5, 7)`. -/
theorem pickAt_after_failed_build_witness :
    (buildPickingFBO (initialApp : PickApp ℝ) 0).1 = false ∧
      GLCall.drawScene true
        ∈ (pickAt 32767 (buildPickingFBO (initialApp : PickApp ℝ) 0).2 5 7 none
            (fun _ => 1)).calls ∧
      GLCall.readPixels 5 ((buildPickingFBO (initialApp : PickApp ℝ) 0).2.winH - 1 - 7)
        ∈ (pickAt 32767 (buildPickingFBO (initialApp : PickApp ℝ) 0).2 5 7 none
            (fun _ => 1)).calls ∧
      (pickAt 32767 (buildPickingFBO (initialApp : PickApp ℝ) 0).2 5 7 none
        (fun _ => 1)).picked = -1 ∧
      (pickAt 32767 (buildPickingFBO (initialApp : PickApp ℝ) 0).2 5 7 none (fun _ => 1)).state
        = (buildPickingFBO (initialApp : PickApp ℝ) 0).2 :=
  have h : (buildPickingFBO (initialApp : PickApp ℝ) 0).1 = false := by
    simp [buildPickingFBO, GL_FRAMEBUFFER_COMPLETE]
  ⟨h, pickAt_after_failed_build 32767 initialApp 0 5 7 none (fun _ => 1) h⟩

end Picking

namespace Bezier

/-! ## The degenerate branch of `normalize` -/

/-- C21: for every vector `v` whose Euclidean length is at most `1e-6`
(the zero vector included), `normalize v` returns `v` unchanged, so the
result is not of unit length. -/
theorem normalize_of_short (v : Vec3 ℝ) (h : Real.sqrt (dotp v v) ≤ 1 / 1000000) :
    normalize Real.sqrt v = v ∧
      (normalize Real.sqrt v).x ^ 2 + (normalize Real.sqrt v).y ^ 2
        + (normalize Real.sqrt v).z ^ 2 ≠ 1 ∧
      normalize Real.sqrt (Vec3.zero : Vec3 ℝ) = Vec3.zero := by
  have hkeep : ∀ w : Vec3 ℝ, Real.sqrt (dotp w w) ≤ 1 / 1000000 → normalize Real.sqrt w = w := by
    intro w hw
    simp only [normalize, if_neg (not_lt.mpr hw)]
  have hzero : Real.sqrt (dotp (Vec3.zero : Vec3 ℝ) Vec3.zero) ≤ 1 / 1000000 := by
    simp [dotp, Vec3.zero]
  refine ⟨hkeep v h, ?_, hkeep _ hzero⟩
  rw [hkeep v h]
  have hnn : 0 ≤ dotp v v := by
    unfold dotp
    nlinarith [mul_self_nonneg v.x, mul_self_nonneg v.y, mul_self_nonneg v.z]
  have hle : dotp v v ≤ (1 / 1000000) ^ 2 := by
    by_contra hcon
    push_neg at hcon
    have hlt := (Real.lt_sqrt (by norm_num : (0 : ℝ) ≤ 1 / 1000000)).mpr hcon
    linarith
  unfold dotp at hle
  intro hone
  have : v.x ^ 2 + v.y ^ 2 + v.z ^ 2 ≤ (1 / 1000000) ^ 2 := by nlinarith
  rw [hone] at this
  norm_num at this

/-- The statement of C21 for the zero vector. -/
theorem normalize_of_short_witness :
    normalize Real.sqrt (⟨0, 0, 0⟩ : Vec3 ℝ) = ⟨0, 0, 0⟩ ∧
      (normalize Real.sqrt (⟨0, 0, 0⟩ : Vec3 ℝ)).x ^ 2
        + (normalize Real.sqrt (⟨0, 0, 0⟩ : Vec3 ℝ)).y ^ 2
        + (normalize Real.sqrt (⟨0, 0, 0⟩ : Vec3 ℝ)).z ^ 2 ≠ 1 ∧
      normalize Real.sqrt (Vec3.zero : Vec3 ℝ) = Vec3.zero :=
  normalize_of_short ⟨0, 0, 0⟩ (by simp [dotp])

/-! ## The resolution stays in range -/

/-- The key handler keeps `RES` a multiple of 4. -/
theorem keys_RES_dvd {F : Type} [LinearOrderedField F] (sqrtf : F → F) (st st1 : App F)
    (k : Char) (hd : 4 ∣ st.RES) (hk : keys sqrtf st k = some st1) : 4 ∣ st1.RES := by
  unfold keys at hk
  split_ifs at hk <;> simp only [Option.some.injEq] at hk <;> subst hk <;>
    first | exact hd | (dsimp only; omega)

/-- After any sequence of keys that reaches a state, `RES` is a multiple
of 4. -/
theorem runKeys_RES_dvd {F : Type} [LinearOrderedField F] (sqrtf : F → F) (ks : List Char)
    (st st1 : App F) (hd : 4 ∣ st.RES) (hk : runKeys sqrtf st ks = some st1) : 4 ∣ st1.RES := by
  induction ks generalizing st with
  | nil =>
    simp only [runKeys, Option.some.injEq] at hk
    subst hk
    exact hd
  | cons k ks ih =>
    simp only [runKeys] at hk
    rcases h : keys sqrtf st k with _ | st2
    · simp [h] at hk
    · simp only [h] at hk
      exact ih st2 (keys_RES_dvd sqrtf st st2 k hd h) hk

/-- C22: starting from `RES = 32`, after any sequence of key events handled
by `keys` the resolution satisfies `4 ≤ RES ≤ 128` and is a multiple of 4;
hence `RES ≥ 2` at every `buildMesh` call and the divisor `RES - 1` of the
parameter step is not zero. -/
theorem keys_RES_in_range (file : Option (List (Option ℝ))) (ks : List Char) (st : App ℝ)
    (h : runKeys Real.sqrt (startup Real.sqrt file) ks = some st) :
    (startup Real.sqrt file).RES = 32 ∧ 4 ≤ st.RES ∧ st.RES ≤ 128 ∧ 4 ∣ st.RES ∧ 2 ≤ st.RES ∧
      ((st.RES - 1 : ℕ) : ℝ) ≠ 0 ∧ st.mesh = buildMesh Real.sqrt st.ctrl st.RES := by
  obtain ⟨hm, hlo, hhi⟩ := runKeys_invariant Real.sqrt ks (startup Real.sqrt file) st rfl
    (by simp [startup]) (by simp [startup]) h
  have hd := runKeys_RES_dvd Real.sqrt ks (startup Real.sqrt file) st
    (by simp [startup]; decide) h
  refine ⟨rfl, hlo, hhi, hd, by omega, ?_, hm⟩
  have h1 : 1 ≤ st.RES - 1 := by omega
  exact_mod_cast Nat.pos_iff_ne_zero.mp h1

/-- The statement of C22 for the keys `-`, `-`, `+` after a start without a
control-point file, which lead to `RES = 28`. -/
theorem keys_RES_in_range_witness :
    ∃ st : App ℝ, runKeys Real.sqrt (startup Real.sqrt none) ['-', '-', '+'] = some st ∧
      (startup Real.sqrt none).RES = 32 ∧ 4 ≤ st.RES ∧ st.RES ≤ 128 ∧ 4 ∣ st.RES ∧ 2 ≤ st.RES ∧
      ((st.RES - 1 : ℕ) : ℝ) ≠ 0 ∧ st.mesh = buildMesh Real.sqrt st.ctrl st.RES :=
  have hsome := runKeys_isSome Real.sqrt ['-', '-', '+'] (startup Real.sqrt none) (by decide)
  ⟨hsome.choose, hsome.choose_spec,
    keys_RES_in_range none ['-', '-', '+'] hsome.choose hsome.choose_spec⟩

end Bezier

namespace Bezier

/-! ## Normals of the default grid -/

/-- The `u`-tangent of the default grid in closed form. -/
theorem evalPu_default (u v : ℝ) :
    evalPu setDefaultControlPoints u v = ⟨3, 0, 54 / 5 * (1 - 2 * u) * v * (1 - v)⟩ := by
  simp only [evalPu, accumulate_eq_sum, Fin.sum_univ_four, setDefaultControlPoints_apply,
    Vec3.mk.injEq]
  simp [bernstein3, bernstein3_deriv, show ((3 : Fin 4) : ℕ) = 3 from rfl]
  refine ⟨?_, ?_, ?_⟩ <;> ring

/-- The `v`-tangent of the default grid in closed form. -/
theorem evalPv_default (u v : ℝ) :
    evalPv setDefaultControlPoints u v = ⟨0, 3, 54 / 5 * u * (1 - u) * (1 - 2 * v)⟩ := by
  simp only [evalPv, accumulate_eq_sum, Fin.sum_univ_four, setDefaultControlPoints_apply,
    Vec3.mk.injEq]
  simp [bernstein3, bernstein3_deriv, show ((3 : Fin 4) : ℕ) = 3 from rfl]
  refine ⟨?_, ?_, ?_⟩ <;> ring

/-- On the default grid the `z`-component of `Pu × Pv` is 9 everywhere. -/
theorem crossp_default_z (u v : ℝ) :
    (crossp (evalPu setDefaultControlPoints u v) (evalPv setDefaultControlPoints u v)).z = 9 := by
  rw [evalPu_default, evalPv_default]
  simp only [crossp]
  norm_num

/-- A vector with `z`-component 9 is longer than the threshold of `normalize`. -/
theorem sqrt_dotp_gt_of_z (c : Vec3 ℝ) (hz : c.z = 9) :
    Real.sqrt (dotp c c) > 1 / 1000000 := by
  have h81 : (81 : ℝ) ≤ dotp c c := by
    unfold dotp
    rw [hz]
    nlinarith [mul_self_nonneg c.x, mul_self_nonneg c.y]
  have : (1 / 1000000 : ℝ) < Real.sqrt (dotp c c) :=
    (Real.lt_sqrt (by norm_num)).mpr (by nlinarith)
  exact this

/-- C26: on the default grid the `z`-component of `Pu × Pv` is 9 for every
real `(u, v)`; hence, for every resolution `N ≥ 2` and every vertex of the
mesh, the length of `Pu × Pv` exceeds the threshold of `normalize` (the
near-zero branch is not taken), the stored normal has unit length, and its
`z`-component is strictly positive. -/
theorem default_mesh_normals (N : ℕ) (hN : 2 ≤ N) (vt : Vertex ℝ)
    (hvt : vt ∈ (buildMesh Real.sqrt setDefaultControlPoints N).verts) :
    (∀ u v : ℝ, (crossp (evalPu setDefaultControlPoints u v)
        (evalPv setDefaultControlPoints u v)).z = 9) ∧
      Real.sqrt (dotp
          (crossp (evalPu setDefaultControlPoints vt.u vt.v)
            (evalPv setDefaultControlPoints vt.u vt.v))
          (crossp (evalPu setDefaultControlPoints vt.u vt.v)
            (evalPv setDefaultControlPoints vt.u vt.v))) > 1 / 1000000 ∧
      vt.nx ^ 2 + vt.ny ^ 2 + vt.nz ^ 2 = 1 ∧ 0 < vt.nz := by
  obtain ⟨i, j, _, _, rfl⟩ := buildMesh_verts_mem Real.sqrt _ N vt hvt
  have hlen := sqrt_dotp_gt_of_z _ (crossp_default_z
    (meshVertex Real.sqrt setDefaultControlPoints N i j).u
    (meshVertex Real.sqrt setDefaultControlPoints N i j).v)
  refine ⟨crossp_default_z, hlen, normalize_unit_length _ hlen, ?_⟩
  have hpos : (0 : ℝ) < 1 / 1000000 := by norm_num
  have hz := crossp_default_z (meshVertex Real.sqrt setDefaultControlPoints N i j).u
    (meshVertex Real.sqrt setDefaultControlPoints N i j).v
  simp only [meshVertex] at hlen hz ⊢
  simp only [normalize, if_pos hlen, hz]
  exact div_pos (by norm_num) (lt_trans hpos hlen)

/-- The statement of C26 at resolution 2, for the first vertex of the mesh. -/
theorem default_mesh_normals_witness :
    (∀ u v : ℝ, (crossp (evalPu setDefaultControlPoints u v)
        (evalPv setDefaultControlPoints u v)).z = 9) ∧
      Real.sqrt (dotp
          (crossp (evalPu setDefaultControlPoints (0 : ℝ) 0)
            (evalPv setDefaultControlPoints (0 : ℝ) 0))
          (crossp (evalPu setDefaultControlPoints (0 : ℝ) 0)
            (evalPv setDefaultControlPoints (0 : ℝ) 0))) > 1 / 1000000 ∧
      (0 : ℝ) ^ 2 + 0 ^ 2 + 1 ^ 2 = 1 ∧ (0 : ℝ) < 1 :=
  have hmem : (⟨-3/2, -3/2, 0, 0, 0, 1, 0, 0⟩ : Vertex ℝ)
      ∈ (buildMesh Real.sqrt setDefaultControlPoints 2).verts := by
    rw [← meshVertex_default_origin]
    exact List.getElem?_mem (buildMesh_verts_getElem? Real.sqrt setDefaultControlPoints 2 0 0
      (by decide) (by decide))
  default_mesh_normals 2 (by decide) ⟨-3/2, -3/2, 0, 0, 0, 1, 0, 0⟩ hmem

end Bezier

namespace Picking

/-! ## The frame of a successful pick -/

/-- C27: when `pickAt` reads a pixel equal to `pickColorBytes[id]`, the three
components of `objColor[id]` become `rand() / RAND_MAX`, each within `[0, 1]`;
the colours of the other two objects and the other globals are unchanged
(`pickColorBytes` is a constant table that `pickAt` only reads). -/
theorem pick_changes_only_picked (RAND_MAX : ℕ) (st : PickApp ℝ) (mx my : ℤ)
    (rnd : Fin 3 → ℕ) (id : Fin 3) (hpos : 0 < RAND_MAX) (hr : ∀ k, rnd k ≤ RAND_MAX) :
    (pickAt RAND_MAX st mx my (some (pickColorBytes id)) rnd).picked = (id.val : ℤ) ∧
      (∀ k : Fin 3,
        (pickAt RAND_MAX st mx my (some (pickColorBytes id)) rnd).state.objColor id k
            = (rnd k : ℝ) / (RAND_MAX : ℝ) ∧
          0 ≤ (pickAt RAND_MAX st mx my (some (pickColorBytes id)) rnd).state.objColor id k ∧
          (pickAt RAND_MAX st mx my (some (pickColorBytes id)) rnd).state.objColor id k ≤ 1) ∧
      (∀ a : Fin 3, a ≠ id →
        (pickAt RAND_MAX st mx my (some (pickColorBytes id)) rnd).state.objColor a
          = st.objColor a) ∧
      (pickAt RAND_MAX st mx my (some (pickColorBytes id)) rnd).state.winW = st.winW ∧
      (pickAt RAND_MAX st mx my (some (pickColorBytes id)) rnd).state.winH = st.winH ∧
      (pickAt RAND_MAX st mx my (some (pickColorBytes id)) rnd).state.fboComplete
        = st.fboComplete := by
  have hid : identify (pickColorBytes id) = (id.val : ℤ) := by
    revert id
    decide
  have hge : identify (pickColorBytes id) ≥ 0 := by
    rw [hid]
    exact Int.natCast_nonneg _
  have hst : (pickAt RAND_MAX st mx my (some (pickColorBytes id)) rnd).state
      = { st with objColor := fun a b =>
            if (a.val : ℤ) = (id.val : ℤ) then (rnd b : ℝ) / (RAND_MAX : ℝ)
            else st.objColor a b } := by
    unfold pickAt
    simp only [hid, ge_iff_le, Int.natCast_nonneg, if_true]
  have hR : (0 : ℝ) < (RAND_MAX : ℝ) := by exact_mod_cast hpos
  refine ⟨by rw [pickAt_picked, hid], ?_, ?_, by rw [hst], by rw [hst], by rw [hst]⟩
  · intro k
    rw [hst]
    simp only [if_true]
    refine ⟨trivial, div_nonneg (Nat.cast_nonneg _) hR.le, ?_⟩
    rw [div_le_one hR]
    exact_mod_cast hr k
  · intro a ha
    rw [hst]
    funext b
    have hne : ¬ ((a.val : ℤ) = (id.val : ℤ)) := by
      intro h
      apply ha
      exact Fin.ext (by exact_mod_cast h)
    simp only [if_neg hne]

/-- The statement of C27 for a click on object 1 in the start-up state, with
`RAND_MAX = 32767` and `rand()` returning 100, 200, 300. -/
theorem pick_changes_only_picked_witness :
    (pickAt 32767 (initialApp : PickApp ℝ) 5 7 (some (pickColorBytes 1))
        ![100, 200, 300]).picked = ((1 : Fin 3).val : ℤ) ∧
      (∀ k : Fin 3,
        (pickAt 32767 (initialApp : PickApp ℝ) 5 7 (some (pickColorBytes 1))
            ![100, 200, 300]).state.objColor 1 k
            = ((![100, 200, 300] : Fin 3 → ℕ) k : ℝ) / ((32767 : ℕ) : ℝ) ∧
          0 ≤ (pickAt 32767 (initialApp : PickApp ℝ) 5 7 (some (pickColorBytes 1))
            ![100, 200, 300]).state.objColor 1 k ∧
          (pickAt 32767 (initialApp : PickApp ℝ) 5 7 (some (pickColorBytes 1))
            ![100, 200, 300]).state.objColor 1 k ≤ 1) ∧
      (∀ a : Fin 3, a ≠ 1 →
        (pickAt 32767 (initialApp : PickApp ℝ) 5 7 (some (pickColorBytes 1))
            ![100, 200, 300]).state.objColor a
          = (initialApp : PickApp ℝ).objColor a) ∧
      (pickAt 32767 (initialApp : PickApp ℝ) 5 7 (some (pickColorBytes 1))
        ![100, 200, 300]).state.winW = (initialApp : PickApp ℝ).winW ∧
      (pickAt 32767 (initialApp : PickApp ℝ) 5 7 (some (pickColorBytes 1))
        ![100, 200, 300]).state.winH = (initialApp : PickApp ℝ).winH ∧
      (pickAt 32767 (initialApp : PickApp ℝ) 5 7 (some (pickColorBytes 1))
        ![100, 200, 300]).state.fboComplete = (initialApp : PickApp ℝ).fboComplete :=
  pick_changes_only_picked 32767 initialApp 5 7 ![100, 200, 300] 1 (by decide) (by decide)

end Picking

namespace Bezier

/-! ## The view matrix -/

/-- The sixteen entries of the matrix built by `lookAt`, in array order. -/
theorem lookAt_entries {F : Type} [LinearOrderedField F] (sqrtf : F → F)
    (eye center up : Vec3 F) :
    lookAt sqrtf eye center up =
      ![(normalize sqrtf (crossp (normalize sqrtf (Vec3.sub center eye)) up)).x,
        (crossp (normalize sqrtf (crossp (normalize sqrtf (Vec3.sub center eye)) up))
          (normalize sqrtf (Vec3.sub center eye))).x,
        -(normalize sqrtf (Vec3.sub center eye)).x,
        0,
        (normalize sqrtf (crossp (normalize sqrtf (Vec3.sub center eye)) up)).y,
        (crossp (normalize sqrtf (crossp (normalize sqrtf (Vec3.sub center eye)) up))
          (normalize sqrtf (Vec3.sub center eye))).y,
        -(normalize sqrtf (Vec3.sub center eye)).y,
        0,
        (normalize sqrtf (crossp (normalize sqrtf (Vec3.sub center eye)) up)).z,
        (crossp (normalize sqrtf (crossp (normalize sqrtf (Vec3.sub center eye)) up))
          (normalize sqrtf (Vec3.sub center eye))).z,
        -(normalize sqrtf (Vec3.sub center eye)).z,
        0,
        -dotp (normalize sqrtf (crossp (normalize sqrtf (Vec3.sub center eye)) up)) eye,
        -dotp (crossp (normalize sqrtf (crossp (normalize sqrtf (Vec3.sub center eye)) up))
          (normalize sqrtf (Vec3.sub center eye))) eye,
        dotp (normalize sqrtf (Vec3.sub center eye)) eye,
        1] := by
  funext n
  fin_cases n <;> rfl

/-- C25: for every eye, center and up vector, the column-major view matrix
returned by `lookAt` maps the homogeneous eye point `(eye, 1)` to
`(0, 0, 0, 1)`. -/
theorem lookAt_maps_eye_to_origin (eye center up : Vec3 ℝ) (r : Fin 4) :
    mulVec4 (lookAt Real.sqrt eye center up) ![eye.x, eye.y, eye.z, 1] r
      = (![0, 0, 0, 1] : Fin 4 → ℝ) r := by
  rw [lookAt_entries]
  generalize normalize Real.sqrt (Vec3.sub center eye) = f
  generalize normalize Real.sqrt (crossp f up) = s
  rw [mulVec4, Fin.sum_univ_four]
  fin_cases r
  · show s.x * eye.x + s.y * eye.y + s.z * eye.z + -dotp s eye * 1 = 0
    unfold dotp
    ring
  · show (crossp s f).x * eye.x + (crossp s f).y * eye.y + (crossp s f).z * eye.z
      + -dotp (crossp s f) eye * 1 = 0
    unfold dotp
    ring
  · show -f.x * eye.x + -f.y * eye.y + -f.z * eye.z + dotp f eye * 1 = 0
    unfold dotp
    ring
  · show (0 : ℝ) * eye.x + 0 * eye.y + 0 * eye.z + 1 * 1 = 1
    ring

end Bezier

namespace Bezier

/-! ## The normal matrix -/

/-- The entries 5 to 8 of a nine-entry array literal. -/
theorem vec9_apply {F : Type} (a0 a1 a2 a3 a4 a5 a6 a7 a8 : F) :
    (![a0, a1, a2, a3, a4, a5, a6, a7, a8] : Fin 9 → F) 5 = a5 ∧
      (![a0, a1, a2, a3, a4, a5, a6, a7, a8] : Fin 9 → F) 6 = a6 ∧
      (![a0, a1, a2, a3, a4, a5, a6, a7, a8] : Fin 9 → F) 7 = a7 ∧
      (![a0, a1, a2, a3, a4, a5, a6, a7, a8] : Fin 9 → F) 8 = a8 :=
  ⟨rfl, rfl, rfl, rfl⟩

/-- Multiplying by `mat_identity()` on the right leaves a matrix unchanged. -/
theorem mat_mul_identity (A : Mat4 ℝ) : mat_mul A mat_identity = A := by
  funext n
  fin_cases n <;>
    simp [mat_mul, idx4, mat_identity, Function.update_apply, Fin.coe_ofNat_eq_mod]

/-- The first normalisation of `lookAt` for the eye `(6, 0, 0)` looking at the
origin. -/
theorem normalize_axis_forward :
    normalize Real.sqrt (Vec3.sub (⟨0, 0, 0⟩ : Vec3 ℝ) ⟨6, 0, 0⟩) = ⟨-1, 0, 0⟩ := by
  have hd : dotp (Vec3.sub (⟨0, 0, 0⟩ : Vec3 ℝ) ⟨6, 0, 0⟩) (Vec3.sub ⟨0, 0, 0⟩ ⟨6, 0, 0⟩) = 36 := by
    norm_num [dotp, Vec3.sub]
  have h36 : Real.sqrt 36 = 6 := by
    rw [show (36 : ℝ) = 6 ^ 2 by norm_num]
    exact Real.sqrt_sq (by norm_num)
  simp only [normalize, hd, h36]
  norm_num [Vec3.sub]

/-- The second normalisation of `lookAt` for the eye `(6, 0, 0)` and the up
vector `(0, 1, 0)`. -/
theorem normalize_axis_side :
    normalize Real.sqrt (crossp (⟨-1, 0, 0⟩ : Vec3 ℝ) ⟨0, 1, 0⟩) = ⟨0, 0, -1⟩ := by
  have hc : crossp (⟨-1, 0, 0⟩ : Vec3 ℝ) ⟨0, 1, 0⟩ = ⟨0, 0, -1⟩ := by
    simp [crossp]
  have hd : dotp (⟨0, 0, -1⟩ : Vec3 ℝ) ⟨0, 0, -1⟩ = 1 := by
    norm_num [dotp]
  simp only [hc, normalize, hd, Real.sqrt_one]
  norm_num

/-- The view matrix for the eye `(6, 0, 0)`, which `display` computes for
`camYawDeg = 0`, `camPitchDeg = 0` and `camDistVal = 6`. -/
theorem lookAt_axis :
    lookAt Real.sqrt (⟨6, 0, 0⟩ : Vec3 ℝ) ⟨0, 0, 0⟩ ⟨0, 1, 0⟩
      = ![0, 0, 1, 0, 0, 1, 0, 0, -1, 0, 0, 0, 0, 0, -6, 1] := by
  rw [lookAt_entries, normalize_axis_forward, normalize_axis_side]
  simp [crossp, dotp]

/-- The upper-left 3×3 block of that view matrix. -/
theorem mat4_to_mat3_axis :
    mat4_to_mat3 (![0, 0, 1, 0, 0, 1, 0, 0, -1, 0, 0, 0, 0, 0, -6, 1] : Mat4 ℝ)
      = ![0, 0, 1, 0, 1, 0, -1, 0, 0] := by
  funext n
  fin_cases n <;> rfl

/-- The array that `invert_mat3` writes for that block: the block itself. -/
theorem invert_mat3_axis :
    invert_mat3 (![0, 0, 1, 0, 1, 0, -1, 0, 0] : Mat3 ℝ) = some ![0, 0, 1, 0, 1, 0, -1, 0, 0] := by
  simp [invert_mat3, (vec9_apply _ _ _ _ _ _ _ _ _).1, (vec9_apply _ _ _ _ _ _ _ _ _).2.1,
    (vec9_apply _ _ _ _ _ _ _ _ _).2.2.1, (vec9_apply _ _ _ _ _ _ _ _ _).2.2.2]
  norm_num

/-- For a singular matrix `invert_mat3` returns `false`. -/
theorem invert_mat3_singular (m : Mat3 ℝ)
    (h : m 0 * (m 4 * m 8 - m 5 * m 7) - m 3 * (m 1 * m 8 - m 2 * m 7)
      + m 6 * (m 1 * m 5 - m 2 * m 4) = 0) :
    invert_mat3 m = none := by
  simp only [invert_mat3, h, abs_zero]
  norm_num

/-- What `invert_mat3` writes, read column-major, is the transpose of the
inverse of `m`: the product of its transpose with `m` is the identity. -/
theorem invert_mat3_transposed (m out : Mat3 ℝ) (h : invert_mat3 m = some out) (r c : Fin 3) :
    ∑ k : Fin 3, entry3 out k r * entry3 m k c = identity3 r c := by
  unfold invert_mat3 at h
  simp only at h
  split_ifs at h with hdet
  simp only [Option.some.injEq] at h
  subst h
  have hne : m 0 * (m 4 * m 8 - m 5 * m 7) - m 3 * (m 1 * m 8 - m 2 * m 7)
      + m 6 * (m 1 * m 5 - m 2 * m 4) ≠ 0 := by
    intro h0
    rw [h0] at hdet
    norm_num at hdet
  rw [Fin.sum_univ_three]
  fin_cases r <;> fin_cases c <;>
    simp [entry3, identity3, Fin.coe_ofNat_eq_mod, (vec9_apply _ _ _ _ _ _ _ _ _).1,
      (vec9_apply _ _ _ _ _ _ _ _ _).2.1, (vec9_apply _ _ _ _ _ _ _ _ _).2.2.1,
      (vec9_apply _ _ _ _ _ _ _ _ _).2.2.2] <;>
    field_simp <;> ring

/-- Hence the array `transpose3(inv3)` that `display` uploads is, read
column-major, the inverse of `m` itself. -/
theorem transpose3_invert_mat3 (m out : Mat3 ℝ) (h : invert_mat3 m = some out) (r c : Fin 3) :
    mul3 (transpose3 out) m r c = identity3 r c := by
  have ht : ∀ k : Fin 3, entry3 (transpose3 out) r k = entry3 out k r := by
    intro k
    fin_cases r <;> fin_cases k <;> rfl
  rw [mul3]
  simp only [ht]
  exact invert_mat3_transposed m out h r c

/-- C24 at the matrix `M = [[0,0,-1],[0,1,0],[1,0,0]]` (column-major
`0,0,1, 0,1,0, -1,0,0`), the view rotation for the eye `(6, 0, 0)`:
`invert_mat3` returns `true` and writes the same array, whose product with
`M` has `-1`, not `1`, as its first diagonal entry. -/
theorem invert_mat3_not_inverse :
    invert_mat3 (![0, 0, 1, 0, 1, 0, -1, 0, 0] : Mat3 ℝ)
        = some ![0, 0, 1, 0, 1, 0, -1, 0, 0] ∧
      mul3 (![0, 0, 1, 0, 1, 0, -1, 0, 0] : Mat3 ℝ) ![0, 0, 1, 0, 1, 0, -1, 0, 0] 0 0 = -1 ∧
      mul3 (![0, 0, 1, 0, 1, 0, -1, 0, 0] : Mat3 ℝ) ![0, 0, 1, 0, 1, 0, -1, 0, 0] 0 0
        ≠ identity3 0 0 := by
  have hm : mul3 (![0, 0, 1, 0, 1, 0, -1, 0, 0] : Mat3 ℝ) ![0, 0, 1, 0, 1, 0, -1, 0, 0] 0 0
      = -1 := by
    rw [mul3, Fin.sum_univ_three]
    show (0 : ℝ) * 0 + 0 * 0 + -1 * 1 = -1
    norm_num
  refine ⟨invert_mat3_axis, hm, ?_⟩
  rw [hm]
  norm_num [identity3]

/-- C23 for the eye `(6, 0, 0)` (`camYawDeg = 0`, `camPitchDeg = 0`,
`camDistVal = 6`): `invert_mat3` succeeds on the block
`M = [[0,0,-1],[0,1,0],[1,0,0]]` and the uploaded array is
`0,0,-1, 0,1,0, 1,0,0`, the column-major inverse of `M`; it is not the
transpose of any left inverse of `M`. -/
theorem displayNormalMat_not_inverse_transpose :
    displayNormalMat Real.sqrt (⟨6, 0, 0⟩ : Vec3 ℝ)
        = (![0, 0, 1, 0, 1, 0, -1, 0, 0], true, ![0, 0, -1, 0, 1, 0, 1, 0, 0]) ∧
      ¬ ∃ inv : Mat3 ℝ,
        (∀ r c : Fin 3, mul3 inv (displayNormalMat Real.sqrt (⟨6, 0, 0⟩ : Vec3 ℝ)).1 r c
          = identity3 r c) ∧
        ∀ r c : Fin 3, entry3 (displayNormalMat Real.sqrt (⟨6, 0, 0⟩ : Vec3 ℝ)).2.2 r c
          = entry3 inv c r := by
  have hval : displayNormalMat Real.sqrt (⟨6, 0, 0⟩ : Vec3 ℝ)
      = (![0, 0, 1, 0, 1, 0, -1, 0, 0], true, ![0, 0, -1, 0, 1, 0, 1, 0, 0]) := by
    simp only [displayNormalMat, mat_mul_identity, lookAt_axis, mat4_to_mat3_axis,
      invert_mat3_axis]
    refine Prod.ext rfl (Prod.ext rfl ?_)
    funext n
    fin_cases n <;> rfl
  refine ⟨hval, ?_⟩
  rw [hval]
  rintro ⟨inv, hinv, htr⟩
  have h00 := hinv 0 0
  rw [mul3, Fin.sum_univ_three] at h00
  have e0 := htr 0 0
  have e1 := htr 1 0
  have e2 := htr 2 0
  have v0 : entry3 (![0, 0, -1, 0, 1, 0, 1, 0, 0] : Mat3 ℝ) 0 0 = 0 := rfl
  have v1 : entry3 (![0, 0, -1, 0, 1, 0, 1, 0, 0] : Mat3 ℝ) 1 0 = 0 := rfl
  have v2 : entry3 (![0, 0, -1, 0, 1, 0, 1, 0, 0] : Mat3 ℝ) 2 0 = -1 := rfl
  have w0 : entry3 (![0, 0, 1, 0, 1, 0, -1, 0, 0] : Mat3 ℝ) 0 0 = 0 := rfl
  have w1 : entry3 (![0, 0, 1, 0, 1, 0, -1, 0, 0] : Mat3 ℝ) 1 0 = 0 := rfl
  have w2 : entry3 (![0, 0, 1, 0, 1, 0, -1, 0, 0] : Mat3 ℝ) 2 0 = 1 := rfl
  simp only at e0 e1 e2 h00
  rw [← e0, ← e1, ← e2, v0, v1, v2, w0, w1, w2] at h00
  norm_num [identity3] at h00

end Bezier

namespace PopupMenu

/-! ## The menu items follow the submenu flag -/

/-- The items that `initMenu` leaves, and the fields it keeps. -/
theorem initMenu_fields {F : Type} [Field F] (st : State F) :
    (initMenu st).menuItems = (if st.squareColorsSubmenu then submenuItems else mainMenuItems) ∧
      (initMenu st).squareColorsSubmenu = st.squareColorsSubmenu ∧
      (initMenu st).showMenu = st.showMenu := by
  unfold initMenu
  cases st.squareColorsSubmenu <;> simp

/-- The selection handler keeps the items in step with the flag while the
menu is shown. -/
theorem handleMenuSelection_invariant {F : Type} [Field F] (st : State F) (itemIndex : Int)
    (h : st.showMenu = true →
      (st.squareColorsSubmenu = true → st.menuItems = submenuItems) ∧
      (st.squareColorsSubmenu = false → st.menuItems = mainMenuItems)) :
    (handleMenuSelection st itemIndex).showMenu = true →
      ((handleMenuSelection st itemIndex).squareColorsSubmenu = true →
        (handleMenuSelection st itemIndex).menuItems = submenuItems) ∧
      ((handleMenuSelection st itemIndex).squareColorsSubmenu = false →
        (handleMenuSelection st itemIndex).menuItems = mainMenuItems) := by
  unfold handleMenuSelection
  split_ifs with h0
  · exact h
  · rcases st.menuItems[itemIndex.toNat]? with _ | item
    · exact h
    · dsimp only
      split_ifs
      all_goals first
        | exact h
        | (intro hs; simp at hs)
        | simp [initMenu]

/-- The mouse callback keeps the items in step with the flag while the menu
is shown, whatever the rounding. -/
theorem mouseButtonCallback_invariant {F : Type} [LinearOrderedField F] (rd : Rounding F)
    (st : State F) (isMain : Bool) (button action : Int) (xpos ypos : F)
    (h : st.showMenu = true →
      (st.squareColorsSubmenu = true → st.menuItems = submenuItems) ∧
      (st.squareColorsSubmenu = false → st.menuItems = mainMenuItems)) :
    (mouseButtonCallback rd st isMain button action xpos ypos).showMenu = true →
      ((mouseButtonCallback rd st isMain button action xpos ypos).squareColorsSubmenu = true →
        (mouseButtonCallback rd st isMain button action xpos ypos).menuItems = submenuItems) ∧
      ((mouseButtonCallback rd st isMain button action xpos ypos).squareColorsSubmenu = false →
        (mouseButtonCallback rd st isMain button action xpos ypos).menuItems = mainMenuItems) := by
  simp only [mouseButtonCallback]
  split_ifs
  all_goals first
    | exact h
    | exact handleMenuSelection_invariant st _ h
    | (intro hs; simp at hs; done)
    | simp [initMenu]

/-- The invariant holds after any sequence of presses. -/
theorem runPresses_invariant {F : Type} [LinearOrderedField F] (rd : Rounding F)
    (ps : List (Press F)) (st : State F)
    (h : st.showMenu = true →
      (st.squareColorsSubmenu = true → st.menuItems = submenuItems) ∧
      (st.squareColorsSubmenu = false → st.menuItems = mainMenuItems)) :
    (runPresses rd st ps).showMenu = true →
      ((runPresses rd st ps).squareColorsSubmenu = true →
        (runPresses rd st ps).menuItems = submenuItems) ∧
      ((runPresses rd st ps).squareColorsSubmenu = false →
        (runPresses rd st ps).menuItems = mainMenuItems) := by
  induction ps generalizing st with
  | nil => exact h
  | cons p ps ih =>
    simp only [runPresses, List.foldl_cons]
    exact ih _ (mouseButtonCallback_invariant rd st _ _ _ _ _ h)

/-- C28: in every state reached from the initial state by a sequence of left
and right mouse presses on the main window, whatever the rounding of the
arithmetic, whenever `showMenu` is true, `menuItems` is the list that
`initMenu` builds for the current `squareColorsSubmenu` flag: three items with
actions 1, 2, 3 when the flag is false, four items with actions 4, 5, 6, 7
when it is true. -/
theorem menuItems_match_flag (rd : Rounding ℝ) (ps : List (Press ℝ))
    (h : (runPresses rd (initialState : State ℝ) ps).showMenu = true) :
    (runPresses rd (initialState : State ℝ) ps).menuItems
        = (initMenu (runPresses rd (initialState : State ℝ) ps)).menuItems ∧
      ((runPresses rd (initialState : State ℝ) ps).squareColorsSubmenu = false →
        (runPresses rd (initialState : State ℝ) ps).menuItems = mainMenuItems ∧
        (runPresses rd (initialState : State ℝ) ps).menuItems.map MenuItem.action
          = [1, 2, 3]) ∧
      ((runPresses rd (initialState : State ℝ) ps).squareColorsSubmenu = true →
        (runPresses rd (initialState : State ℝ) ps).menuItems = submenuItems ∧
        (runPresses rd (initialState : State ℝ) ps).menuItems.map MenuItem.action
          = [4, 5, 6, 7]) := by
  have hinv := runPresses_invariant rd ps (initialState : State ℝ)
    (fun h0 => by simp [initialState] at h0) h
  refine ⟨?_, fun hf => ⟨hinv.2 hf, by rw [hinv.2 hf]; rfl⟩,
    fun hf => ⟨hinv.1 hf, by rw [hinv.1 hf]; rfl⟩⟩
  rw [(initMenu_fields _).1]
  cases hf : (runPresses rd (initialState : State ℝ) ps).squareColorsSubmenu
  · simpa using hinv.2 hf
  · simpa using hinv.1 hf

/-- The statement of C28 after one right click at the centre of the window,
in single and double precision. -/
theorem menuItems_match_flag_witness :
    (runPresses ieee (initialState : State ℝ) [⟨true, 400, 300⟩]).menuItems
        = (initMenu (runPresses ieee (initialState : State ℝ) [⟨true, 400, 300⟩])).menuItems ∧
      ((runPresses ieee (initialState : State ℝ) [⟨true, 400, 300⟩]).squareColorsSubmenu
          = false →
        (runPresses ieee (initialState : State ℝ) [⟨true, 400, 300⟩]).menuItems
          = mainMenuItems ∧
        (runPresses ieee (initialState : State ℝ) [⟨true, 400, 300⟩]).menuItems.map
          MenuItem.action = [1, 2, 3]) ∧
      ((runPresses ieee (initialState : State ℝ) [⟨true, 400, 300⟩]).squareColorsSubmenu
          = true →
        (runPresses ieee (initialState : State ℝ) [⟨true, 400, 300⟩]).menuItems
          = submenuItems ∧
        (runPresses ieee (initialState : State ℝ) [⟨true, 400, 300⟩]).menuItems.map
          MenuItem.action = [4, 5, 6, 7]) :=
  menuItems_match_flag ieee [⟨true, 400, 300⟩]
    (by simp [runPresses, mouseButtonCallback, GLFW_MOUSE_BUTTON_RIGHT, GLFW_MOUSE_BUTTON_LEFT])

end PopupMenu

namespace PopupMenu

/-! ## The breathing scale -/

/-- A call made while `animationEnabled` is false returns the state as it
was, whatever the rounding. -/
theorem updateAnimations_disabled {F : Type} [LinearOrderedField F] (rd : Rounding F)
    (st : State F) (h : st.animationEnabled = false) : updateAnimations rd st = st := by
  simp [updateAnimations, h]

/-- The invariant of the breathing animation in exact arithmetic: the scale
is `1` plus a whole number `k` of steps with `-51 ≤ k ≤ 51`, at most 50 while
growing and at least `-50` while shrinking. -/
theorem updateAnimations_scale_invariant (st : State ℝ) (b : Bool)
    (h : ∃ k : ℤ, st.circleScale = 1 + (k : ℝ) * scaleStep ∧ -51 ≤ k ∧ k ≤ 51 ∧
      (st.circleGrowing = true → k ≤ 50) ∧ (st.circleGrowing = false → -50 ≤ k)) :
    ∃ k : ℤ, (updateAnimations exactArith { st with animationEnabled := b }).circleScale
        = 1 + (k : ℝ) * scaleStep ∧ -51 ≤ k ∧ k ≤ 51 ∧
      ((updateAnimations exactArith { st with animationEnabled := b }).circleGrowing = true →
        k ≤ 50) ∧
      ((updateAnimations exactArith { st with animationEnabled := b }).circleGrowing = false →
        -50 ≤ k) := by
  obtain ⟨k, hk, hlo, hhi, hg, hng⟩ := h
  cases b
  · exact ⟨k, by simpa [updateAnimations] using hk, hlo, hhi,
      by simpa [updateAnimations] using hg, by simpa [updateAnimations] using hng⟩
  · cases hgrow : st.circleGrowing
    · have hm50 := hng hgrow
      by_cases hc : st.circleScale - scaleStep ≤ 1 / 2
      · have hk51 : k - 1 ≤ -51 := by
          by_contra hcon
          have h1 : (-50 : ℝ) ≤ ((k - 1 : ℤ) : ℝ) := by exact_mod_cast (by omega : -50 ≤ k - 1)
          rw [hk] at hc
          push_cast at h1
          unfold scaleStep at hc
          linarith
        refine ⟨k - 1, ?_, by omega, by omega, fun _ => by omega, ?_⟩
        · simp only [updateAnimations, exactArith, hgrow, hc, Bool.not_true, Bool.false_eq_true,
            if_false, if_true]
          rw [hk]; push_cast; ring
        · simp only [updateAnimations, exactArith, hgrow, hc, Bool.not_true, Bool.false_eq_true,
            if_false, if_true]
          simp
      · have hk51 : -51 < k - 1 := by
          by_contra hcon
          have h1 : ((k - 1 : ℤ) : ℝ) ≤ -51 := by exact_mod_cast (by omega : k - 1 ≤ -51)
          rw [hk] at hc
          push_cast at h1
          unfold scaleStep at hc
          apply hc
          linarith
        refine ⟨k - 1, ?_, by omega, by omega, ?_, fun _ => by omega⟩
        · simp only [updateAnimations, exactArith, hgrow, hc, Bool.not_true, Bool.false_eq_true,
            if_false, if_true]
          rw [hk]; push_cast; ring
        · simp only [updateAnimations, exactArith, hgrow, hc, Bool.not_true, Bool.false_eq_true,
            if_false, if_true]
          simp
    · have h50 := hg hgrow
      by_cases hc : st.circleScale + scaleStep ≥ 3 / 2
      · have hk51 : 51 ≤ k + 1 := by
          by_contra hcon
          have h1 : ((k + 1 : ℤ) : ℝ) ≤ 50 := by exact_mod_cast (by omega : k + 1 ≤ 50)
          rw [hk] at hc
          push_cast at h1
          unfold scaleStep at hc
          linarith
        refine ⟨k + 1, ?_, by omega, by omega, ?_, fun _ => by omega⟩
        · simp only [updateAnimations, exactArith, hgrow, hc, Bool.not_true, Bool.false_eq_true,
            if_false, if_true]
          rw [hk]; push_cast; ring
        · simp only [updateAnimations, exactArith, hgrow, hc, Bool.not_true, Bool.false_eq_true,
            if_false, if_true]
          simp
      · have hk51 : k + 1 < 51 := by
          by_contra hcon
          have h1 : (51 : ℝ) ≤ ((k + 1 : ℤ) : ℝ) := by exact_mod_cast (by omega : 51 ≤ k + 1)
          rw [hk] at hc
          push_cast at h1
          unfold scaleStep at hc
          apply hc
          linarith
        refine ⟨k + 1, ?_, by omega, by omega, fun _ => by omega, ?_⟩
        · simp only [updateAnimations, exactArith, hgrow, hc, Bool.not_true, Bool.false_eq_true,
            if_false, if_true]
          rw [hk]; push_cast; ring
        · simp only [updateAnimations, exactArith, hgrow, hc, Bool.not_true, Bool.false_eq_true,
            if_false, if_true]
          simp

/-- The invariant holds after any sequence of calls. -/
theorem runAnimations_scale_invariant (flags : List Bool) (st : State ℝ)
    (h : ∃ k : ℤ, st.circleScale = 1 + (k : ℝ) * scaleStep ∧ -51 ≤ k ∧ k ≤ 51 ∧
      (st.circleGrowing = true → k ≤ 50) ∧ (st.circleGrowing = false → -50 ≤ k)) :
    ∃ k : ℤ, (runAnimations exactArith st flags).circleScale = 1 + (k : ℝ) * scaleStep ∧
      -51 ≤ k ∧ k ≤ 51 ∧
      ((runAnimations exactArith st flags).circleGrowing = true → k ≤ 50) ∧
      ((runAnimations exactArith st flags).circleGrowing = false → -50 ≤ k) := by
  induction flags generalizing st with
  | nil => exact h
  | cons b flags ih =>
    simp only [runAnimations, List.foldl_cons]
    exact ih _ (updateAnimations_scale_invariant st b h)

/-- One more call after a sequence of calls. -/
theorem runAnimations_append {F : Type} [LinearOrderedField F] (rd : Rounding F) (st : State F)
    (flags : List Bool) (b : Bool) :
    runAnimations rd st (flags ++ [b])
      = updateAnimations rd { runAnimations rd st flags with animationEnabled := b } := by
  simp [runAnimations, List.foldl_append]

/-- In exact arithmetic the first `n ≤ 50` enabled calls add `n` steps and
leave the scale growing: `1 + 50 · 0.01f` is still below `1.5`. -/
theorem runAnimations_growing (n : ℕ) (hn : n ≤ 50) :
    (runAnimations exactArith (initialState : State ℝ) (List.replicate n true)).circleScale
        = 1 + (n : ℝ) * scaleStep ∧
      (runAnimations exactArith (initialState : State ℝ) (List.replicate n true)).circleGrowing
        = true := by
  induction n with
  | zero => simp [runAnimations, initialState]
  | succ n ih =>
    obtain ⟨hs, hg⟩ := ih (by omega)
    have hlt : ¬ ((runAnimations exactArith (initialState : State ℝ)
        (List.replicate n true)).circleScale + scaleStep ≥ 3 / 2) := by
      rw [hs]
      have h1 : ((n : ℝ)) ≤ 49 := by exact_mod_cast (by omega : n ≤ 49)
      unfold scaleStep
      intro hc
      linarith
    rw [List.replicate_succ', runAnimations_append]
    generalize runAnimations exactArith (initialState : State ℝ) (List.replicate n true) = s
      at hs hg hlt
    simp only [updateAnimations, exactArith, hg, hlt, Bool.not_true, Bool.false_eq_true,
      if_false, if_true]
    refine ⟨?_, trivial⟩
    rw [hs]; push_cast; ring

/-- C30, as stated, fails: in exact arithmetic on the constants of the program,
from `circleScale = 1` and `circleGrowing = true`, 51 calls with the animation
enabled leave `circleScale = 1 + 51 · 0.01f`, which is above `1.5`. The step
`0.01f` is `5368709 / 536870912`, a little less than `1 / 100`, so the 50th call
stops just short of `1.5`, the test `circleScale >= 1.5f` fails there, and the
51st call adds one more step. -/
theorem circleScale_exceeds_bound :
    (initialState : State ℝ).circleScale = 1 ∧ (initialState : State ℝ).circleGrowing = true ∧
      (runAnimations exactArith (initialState : State ℝ) (List.replicate 51 true)).circleScale
        = 1 + 51 * scaleStep ∧
      ¬ (1 / 2 ≤ (runAnimations exactArith (initialState : State ℝ)
            (List.replicate 51 true)).circleScale ∧
          (runAnimations exactArith (initialState : State ℝ)
            (List.replicate 51 true)).circleScale ≤ 3 / 2) := by
  obtain ⟨hs, hg⟩ := runAnimations_growing 50 (le_refl 50)
  have hc : (runAnimations exactArith (initialState : State ℝ)
      (List.replicate 50 true)).circleScale + scaleStep ≥ 3 / 2 := by
    rw [hs]; unfold scaleStep; norm_num
  have hval : (runAnimations exactArith (initialState : State ℝ)
      (List.replicate 51 true)).circleScale = 1 + 51 * scaleStep := by
    rw [show (51 : ℕ) = 50 + 1 from rfl, List.replicate_succ', runAnimations_append]
    generalize runAnimations exactArith (initialState : State ℝ) (List.replicate 50 true) = s
      at hs hg hc
    simp only [updateAnimations, exactArith, hg, hc, Bool.not_true, Bool.false_eq_true,
      if_false, if_true]
    rw [hs]; push_cast; ring
  refine ⟨rfl, rfl, hval, ?_⟩
  rw [hval]
  unfold scaleStep
  norm_num

/-- C30, amended: in exact arithmetic on the constants of the program, starting
from `circleScale = 1` and `circleGrowing = true`, after any number of
`updateAnimations` calls, with the animation enabled or disabled at each of
them, the scale is `1` plus a whole number `k` of steps `0.01f` with
`-51 ≤ k ≤ 51`, so that `0.5 - 0.01 ≤ circleScale ≤ 1.5 + 0.01`: the test for
turning round follows the step, and the step that reaches the limit passes it
by less than one step. A call made while `animationEnabled` is false, under
any rounding, changes nothing, in particular none of `squareRotation`,
`triangleRotation`, `circleScale` and `circleGrowing`. -/
theorem circleScale_within_step (flags : List Bool) :
    (initialState : State ℝ).circleScale = 1 ∧ (initialState : State ℝ).circleGrowing = true ∧
      (∃ k : ℤ, (runAnimations exactArith (initialState : State ℝ) flags).circleScale
          = 1 + (k : ℝ) * scaleStep ∧ -51 ≤ k ∧ k ≤ 51) ∧
      49 / 100 ≤ (runAnimations exactArith (initialState : State ℝ) flags).circleScale ∧
      (runAnimations exactArith (initialState : State ℝ) flags).circleScale ≤ 151 / 100 ∧
      ∀ (rd : Rounding ℝ) (st : State ℝ), st.animationEnabled = false →
        updateAnimations rd st = st ∧
        (updateAnimations rd st).squareRotation = st.squareRotation ∧
        (updateAnimations rd st).triangleRotation = st.triangleRotation ∧
        (updateAnimations rd st).circleScale = st.circleScale ∧
        (updateAnimations rd st).circleGrowing = st.circleGrowing := by
  obtain ⟨k, hk, hlo, hhi, _, _⟩ := runAnimations_scale_invariant flags initialState
    ⟨0, by simp [initialState], by norm_num, by norm_num, fun _ => by norm_num,
      fun h => by simp [initialState] at h⟩
  have hlor : (-51 : ℝ) ≤ (k : ℝ) := by exact_mod_cast hlo
  have hhir : (k : ℝ) ≤ 51 := by exact_mod_cast hhi
  refine ⟨rfl, rfl, ⟨k, hk, hlo, hhi⟩, ?_, ?_, ?_⟩
  · rw [hk]; unfold scaleStep; linarith
  · rw [hk]; unfold scaleStep; linarith
  · intro rd st hst
    rw [updateAnimations_disabled rd st hst]
    exact ⟨rfl, rfl, rfl, rfl, rfl⟩

/-- The statement of C30, amended, at a concrete input: the scale after 51
enabled calls lies within `0.49 ≤ circleScale ≤ 1.51`, and a call on the
initial state with `animationEnabled` cleared returns that state. -/
theorem circleScale_within_step_witness :
    49 / 100 ≤ (runAnimations exactArith (initialState : State ℝ)
        (List.replicate 51 true)).circleScale ∧
      (runAnimations exactArith (initialState : State ℝ)
        (List.replicate 51 true)).circleScale ≤ 151 / 100 ∧
      ({ (initialState : State ℝ) with animationEnabled := false }).animationEnabled = false ∧
      updateAnimations exactArith { (initialState : State ℝ) with animationEnabled := false }
        = { (initialState : State ℝ) with animationEnabled := false } :=
  ⟨(circleScale_within_step (List.replicate 51 true)).2.2.2.1,
   (circleScale_within_step (List.replicate 51 true)).2.2.2.2.1,
   rfl,
   ((circleScale_within_step (List.replicate 51 true)).2.2.2.2.2 exactArith
      { (initialState : State ℝ) with animationEnabled := false } rfl).1⟩

end PopupMenu


namespace PopupMenu

/-! ## The hit test of the menu -/

/-- The nearest integer, ties to even, of a number whose floor is known. -/
theorem roundHalfEven_of_floor {F : Type} [LinearOrderedField F] [FloorRing F] (t : F) (f : ℤ)
    (hf : (f : F) ≤ t) (hf2 : t < (f : F) + 1) :
    roundHalfEven t =
      if t - (f : F) < 1 / 2 then f else if 1 / 2 < t - (f : F) then f + 1
        else if f % 2 = 0 then f else f + 1 := by
  have h : ⌊t⌋ = f := Int.floor_eq_iff.mpr ⟨hf, hf2⟩
  simp only [roundHalfEven, h]

/-- The rounding of a number whose binary exponent is known. -/
theorem roundBinary_of_log {F : Type} [LinearOrderedField F] [FloorRing F] (m e : ℤ) (q : F)
    (hq : q ≠ 0) (h1 : (2 : F) ^ e ≤ |q|) (h2 : |q| < (2 : F) ^ (e + 1)) :
    roundBinary m q = (roundHalfEven (q / 2 ^ (e - m)) : F) * 2 ^ (e - m) := by
  have hpos : 0 < |q| := abs_pos.mpr hq
  have hlog : Int.log 2 |q| = e := by
    apply le_antisymm
    · have := (Int.lt_zpow_iff_log_lt (b := 2) (by norm_num) hpos (x := e + 1)).mp
        (by exact_mod_cast h2)
      omega
    · exact (Int.zpow_le_iff_le_log (b := 2) (by norm_num) hpos).mp (by exact_mod_cast h1)
  simp only [roundBinary, hq, if_false, hlog]

/-- The rounding of a number whose binary exponent `e` and scaled floor `f` are
known. -/
theorem roundBinary_eq {F : Type} [LinearOrderedField F] [FloorRing F] (m e f : ℤ) (q : F)
    (hq : q ≠ 0) (h1 : (2 : F) ^ e ≤ |q|) (h2 : |q| < (2 : F) ^ (e + 1))
    (hf : (f : F) ≤ q / 2 ^ (e - m)) (hf2 : q / 2 ^ (e - m) < (f : F) + 1) :
    roundBinary m q =
      (((if q / 2 ^ (e - m) - (f : F) < 1 / 2 then f
          else if 1 / 2 < q / 2 ^ (e - m) - (f : F) then f + 1
          else if f % 2 = 0 then f else f + 1 : ℤ) : F)) * 2 ^ (e - m) := by
  rw [roundBinary_of_log m e q hq h1 h2, roundHalfEven_of_floor _ f hf hf2]

/-- Zero is rounded to zero. -/
theorem roundBinary_zero {F : Type} [LinearOrderedField F] [FloorRing F] (m : ℤ) :
    roundBinary m (0 : F) = 0 := by
  simp [roundBinary]

/-- The value `fl(MENU_WIDTH / 2)` is `0.2f`: halving is exact. -/
theorem ieee_half_MENU_WIDTH :
    roundBinary 23 ((MENU_WIDTH : ℚ) / 2) = 13421773 / 67108864 := by
  rw [roundBinary_eq 23 (-3) 13421773 _ (by norm_num [MENU_WIDTH])
    (by norm_num [MENU_WIDTH, abs_of_pos]) (by norm_num [MENU_WIDTH, abs_of_pos])
    (by norm_num [MENU_WIDTH]) (by norm_num [MENU_WIDTH])]
  norm_num [MENU_WIDTH]

/-- The value `fl(ITEM_HEIGHT / 2)` is `0.035f`: halving is exact. -/
theorem ieee_half_ITEM_HEIGHT :
    roundBinary 23 ((ITEM_HEIGHT : ℚ) / 2) = 9395241 / 268435456 := by
  rw [roundBinary_eq 23 (-5) 9395241 _ (by norm_num [ITEM_HEIGHT])
    (by norm_num [ITEM_HEIGHT, abs_of_pos]) (by norm_num [ITEM_HEIGHT, abs_of_pos])
    (by norm_num [ITEM_HEIGHT]) (by norm_num [ITEM_HEIGHT])]
  norm_num [ITEM_HEIGHT]

/-- With `menuX = -0.48f` the computed left edge `fl(menuX - 0.2f)` is
`-0.68f`: the exact difference `-45634027 / 2^26` lies below it and is rounded
up to it. -/
theorem ieee_menuLeft : menuLeft ieee menuNearEdge = -(11408507 / 16777216) := by
  simp only [menuLeft, ieee, menuNearEdge, ieee_half_MENU_WIDTH]
  rw [roundBinary_eq 23 (-1) (-11408507) _ (by norm_num)
      (by norm_num [abs_of_neg]) (by norm_num [abs_of_neg])
      (by norm_num) (by norm_num)]
  norm_num

/-- With `menuX = -0.48f` the computed right edge `fl(menuX + 0.2f)` is
`-9395240 / 2^25`. -/
theorem ieee_menuRight : menuRight ieee menuNearEdge = -(9395240 / 33554432) := by
  simp only [menuRight, ieee, menuNearEdge, ieee_half_MENU_WIDTH]
  rw [roundBinary_eq 23 (-2) (-9395241) _ (by norm_num)
      (by norm_num [abs_of_neg]) (by norm_num [abs_of_neg])
      (by norm_num) (by norm_num)]
  norm_num

/-- With `menuY = 0` the computed bottom edge of the first item,
`fl(fl(0 + 0.08f) - 0.035f)`, is `12079595 / 2^28`, which is positive. -/
theorem ieee_itemBottom_first (item : MenuItem ℚ) (h : item.yPosition = 5368709 / 67108864) :
    itemBottom ieee menuNearEdge item = 12079595 / 268435456 := by
  have h0 : roundBinary 23 ((0 : ℚ) + 5368709 / 67108864) = 5368709 / 67108864 := by
    rw [roundBinary_eq 23 (-4) 10737418 _ (by norm_num)
      (by norm_num [abs_of_pos]) (by norm_num [abs_of_pos]) (by norm_num) (by norm_num)]
    norm_num
  simp only [itemBottom, ieee, menuNearEdge, h, h0, ieee_half_ITEM_HEIGHT]
  rw [roundBinary_eq 23 (-5) 12079595 _ (by norm_num)
      (by norm_num [abs_of_pos]) (by norm_num [abs_of_pos]) (by norm_num) (by norm_num)]
  norm_num

/-- With `menuY = 0` the computed edges of an item with `yPosition = 0` are
`0.035f` and `-0.035f`. -/
theorem ieee_item_edges_second (item : MenuItem ℚ) (h : item.yPosition = 0) :
    itemTop ieee menuNearEdge item = 9395241 / 268435456 ∧
      itemBottom ieee menuNearEdge item = -(9395241 / 268435456) := by
  have h0 : roundBinary 23 ((0 : ℚ) + 0) = 0 := by rw [add_zero, roundBinary_zero]
  constructor
  · simp only [itemTop, ieee, menuNearEdge, h, h0, ieee_half_ITEM_HEIGHT]
    rw [roundBinary_eq 23 (-5) 9395241 _ (by norm_num)
      (by norm_num [abs_of_pos]) (by norm_num [abs_of_pos]) (by norm_num) (by norm_num)]
    norm_num
  · simp only [itemBottom, ieee, menuNearEdge, h, h0, ieee_half_ITEM_HEIGHT]
    rw [roundBinary_eq 23 (-5) (-9395241) _ (by norm_num)
      (by norm_num [abs_of_neg]) (by norm_num [abs_of_neg]) (by norm_num) (by norm_num)]
    norm_num

/-- The conversion of the cursor coordinate `x = 208` gives `-0.48f`. -/
theorem ieee_ndcOfX_208 : ndcOfX ieee (208 : ℚ) = -(16106127 / 33554432) := by
  have h1 : roundBinary 52 ((208 : ℚ) / (WINDOW_WIDTH : ℚ))
      = 1170935903116329 / 4503599627370496 := by
    rw [roundBinary_eq 52 (-2) 4683743612465315 _ (by norm_num [WINDOW_WIDTH])
      (by norm_num [WINDOW_WIDTH, abs_of_pos]) (by norm_num [WINDOW_WIDTH, abs_of_pos])
      (by norm_num [WINDOW_WIDTH]) (by norm_num [WINDOW_WIDTH])]
    norm_num [WINDOW_WIDTH]
  have h2 : roundBinary 52 ((1170935903116329 : ℚ) / 4503599627370496 * 2)
      = 1170935903116329 / 2251799813685248 := by
    rw [roundBinary_eq 52 (-1) 4683743612465316 _ (by norm_num)
      (by norm_num [abs_of_pos]) (by norm_num [abs_of_pos]) (by norm_num) (by norm_num)]
    norm_num
  have h3 : roundBinary 52 ((1170935903116329 : ℚ) / 2251799813685248 - 1)
      = -(1080863910568919 / 2251799813685248) := by
    rw [roundBinary_eq 52 (-2) (-8646911284551352) _ (by norm_num)
      (by norm_num [abs_of_neg]) (by norm_num [abs_of_neg]) (by norm_num) (by norm_num)]
    norm_num
  simp only [ndcOfX, ieee, h1, h2, h3]
  rw [roundBinary_eq 23 (-2) (-16106128) _ (by norm_num)
      (by norm_num [abs_of_neg]) (by norm_num [abs_of_neg]) (by norm_num) (by norm_num)]
  norm_num

/-- The conversion of the cursor coordinate `x = 128` gives `-0.68f`. -/
theorem ieee_ndcOfX_128 : ndcOfX ieee (128 : ℚ) = -(11408507 / 16777216) := by
  have h1 : roundBinary 52 ((128 : ℚ) / (WINDOW_WIDTH : ℚ))
      = 5764607523034235 / 36028797018963968 := by
    rw [roundBinary_eq 52 (-3) 5764607523034234 _ (by norm_num [WINDOW_WIDTH])
      (by norm_num [WINDOW_WIDTH, abs_of_pos]) (by norm_num [WINDOW_WIDTH, abs_of_pos])
      (by norm_num [WINDOW_WIDTH]) (by norm_num [WINDOW_WIDTH])]
    norm_num [WINDOW_WIDTH]
  have h2 : roundBinary 52 ((5764607523034235 : ℚ) / 36028797018963968 * 2)
      = 5764607523034235 / 18014398509481984 := by
    rw [roundBinary_eq 52 (-2) 5764607523034235 _ (by norm_num)
      (by norm_num [abs_of_pos]) (by norm_num [abs_of_pos]) (by norm_num) (by norm_num)]
    norm_num
  have h3 : roundBinary 52 ((5764607523034235 : ℚ) / 18014398509481984 - 1)
      = -(3062447746611937 / 4503599627370496) := by
    rw [roundBinary_eq 52 (-1) (-6124895493223875) _ (by norm_num)
      (by norm_num [abs_of_neg]) (by norm_num [abs_of_neg]) (by norm_num) (by norm_num)]
    norm_num
  simp only [ndcOfX, ieee, h1, h2, h3]
  rw [roundBinary_eq 23 (-1) (-11408507) _ (by norm_num)
      (by norm_num [abs_of_neg]) (by norm_num [abs_of_neg]) (by norm_num) (by norm_num)]
  norm_num

/-- The conversion of the cursor coordinate `y = 300` gives `0`. -/
theorem ieee_ndcOfY_300 : ndcOfY ieee (300 : ℚ) = 0 := by
  have h1 : roundBinary 52 ((300 : ℚ) / (WINDOW_HEIGHT : ℚ)) = 1 / 2 := by
    rw [roundBinary_eq 52 (-1) 4503599627370496 _ (by norm_num [WINDOW_HEIGHT])
      (by norm_num [WINDOW_HEIGHT, abs_of_pos]) (by norm_num [WINDOW_HEIGHT, abs_of_pos])
      (by norm_num [WINDOW_HEIGHT]) (by norm_num [WINDOW_HEIGHT])]
    norm_num [WINDOW_HEIGHT]
  have h2 : roundBinary 52 ((1 : ℚ) / 2 * 2) = 1 := by
    rw [roundBinary_eq 52 0 4503599627370496 _ (by norm_num)
      (by norm_num [abs_of_pos]) (by norm_num [abs_of_pos]) (by norm_num) (by norm_num)]
    norm_num
  simp only [ndcOfY, ieee, h1, h2, sub_self, roundBinary_zero]

/-- In exact arithmetic the four comparisons of `getMenuItemAt` say that the
point lies in the item rectangle. -/
theorem itemHit_exactArith_iff (st : State ℝ) (x y : ℝ) (item : MenuItem ℝ) :
    itemHit exactArith st x y item ↔ itemRectContains st x y item := by
  unfold itemHit itemRectContains menuLeft menuRight itemTop itemBottom exactArith
  rw [abs_le, abs_le]
  constructor
  · rintro ⟨h1, h2, h3, h4⟩
    exact ⟨⟨by linarith, by linarith⟩, ⟨by linarith, by linarith⟩⟩
  · rintro ⟨⟨h1, h2⟩, ⟨h3, h4⟩⟩
    exact ⟨by linarith, by linarith, by linarith, by linarith⟩

/-- The loop of `getMenuItemAt` from index `i`: either no item of the rest
passes the test and the result is `-1`, or the result is `i + n` for the
first position `n` of the rest whose item passes the test. -/
theorem getMenuItemLoop_spec {F : Type} [LinearOrderedField F] (rd : Rounding F) (st : State F)
    (x y : F) (l : List (MenuItem F)) (i : ℕ) :
    (getMenuItemLoop rd st x y l i = -1 ∧
        ∀ (n : ℕ) (item : MenuItem F), l[n]? = some item → ¬ itemHit rd st x y item) ∨
      ∃ (n : ℕ) (item : MenuItem F), l[n]? = some item ∧
        getMenuItemLoop rd st x y l i = ((i + n : ℕ) : ℤ) ∧ itemHit rd st x y item ∧
        ∀ (m : ℕ) (item2 : MenuItem F), m < n → l[m]? = some item2 →
          ¬ itemHit rd st x y item2 := by
  induction l generalizing i with
  | nil =>
    left
    exact ⟨rfl, fun n item h => by simp at h⟩
  | cons a rest ih =>
    by_cases hit : itemHit rd st x y a
    · right
      refine ⟨0, a, List.getElem?_cons_zero, ?_, hit,
        fun m _ hm => absurd hm (Nat.not_lt_zero m)⟩
      have hit2 : x ≥ menuLeft rd st ∧ x ≤ menuRight rd st ∧ y ≤ itemTop rd st a
          ∧ y ≥ itemBottom rd st a := hit
      simp only [getMenuItemLoop]
      rw [if_pos hit2]
      rfl
    · have hstep : getMenuItemLoop rd st x y (a :: rest) i
          = getMenuItemLoop rd st x y rest (i + 1) := by
        have hit2 : ¬ (x ≥ menuLeft rd st ∧ x ≤ menuRight rd st ∧ y ≤ itemTop rd st a
            ∧ y ≥ itemBottom rd st a) := hit
        simp only [getMenuItemLoop]
        rw [if_neg hit2]
      rcases ih (i + 1) with ⟨hr, hnone⟩ | ⟨n, item, hn, hr, hin, hfirst⟩
      · left
        refine ⟨by rw [hstep, hr], ?_⟩
        intro n item hn
        cases n with
        | zero =>
          simp only [List.getElem?_cons_zero, Option.some.injEq] at hn
          subst hn
          exact hit
        | succ n => exact hnone n item (by simpa using hn)
      · right
        refine ⟨n + 1, item, by simpa using hn, ?_, hin, ?_⟩
        · rw [hstep, hr]
          congr 1
          omega
        · intro m item2 hm hm2
          cases m with
          | zero =>
            simp only [List.getElem?_cons_zero, Option.some.injEq] at hm2
            subst hm2
            exact hit
          | succ m => exact hfirst m item2 (by omega) (by simpa using hm2)

/-- C29, as stated, fails for the compiled arithmetic: with the main menu
shown at `menuX = -0.48f`, `menuY = 0` (the state after a right click at the
cursor position `(208, 300)`), the point `x = -0.68f`, `y = 0` (a left click
at `(128, 300)`) lies in no item rectangle, since
`|x - menuX| = 6710887 / 2^25` exceeds `MENU_WIDTH / 2 = 13421773 / 2^26`, yet
`getMenuItemAt` returns `1`: the left edge `menuX - MENU_WIDTH/2` is rounded
to `-0.68f`, so the test `x >= menuLeft` succeeds. -/
theorem getMenuItemAt_outside_rectangle :
    mouseButtonCallback ieee (initialState : State ℚ) true GLFW_MOUSE_BUTTON_RIGHT GLFW_PRESS
        208 300 = menuNearEdge ∧
      ndcOfX ieee (128 : ℚ) = xNearEdge ∧ ndcOfY ieee (300 : ℚ) = 0 ∧
      menuNearEdge.showMenu = true ∧
      getMenuItemAt ieee menuNearEdge xNearEdge 0 = 1 ∧
      (∀ (n : ℕ) (item : MenuItem ℚ), menuNearEdge.menuItems[n]? = some item →
        ¬ itemRectContains menuNearEdge xNearEdge 0 item) ∧
      ¬ (|xNearEdge - menuNearEdge.menuX| ≤ MENU_WIDTH / 2) := by
  have hout : ¬ (|xNearEdge - menuNearEdge.menuX| ≤ (MENU_WIDTH : ℚ) / 2) := by
    rw [abs_le]
    norm_num [xNearEdge, menuNearEdge, MENU_WIDTH]
  refine ⟨?_, ieee_ndcOfX_128, ieee_ndcOfY_300, rfl, ?_, fun n item _ h => hout h.1, hout⟩
  · simp [mouseButtonCallback, GLFW_MOUSE_BUTTON_RIGHT, GLFW_MOUSE_BUTTON_LEFT, GLFW_PRESS,
      initMenu, initialState, menuNearEdge, ieee_ndcOfX_208, ieee_ndcOfY_300]
  · have hb := ieee_itemBottom_first
      { label := "Stop", yPosition := 5368709 / 67108864, isSubmenu := false, action := 1,
        color := ![1, 0, 0] } rfl
    obtain ⟨ht, hb2⟩ := ieee_item_edges_second
      { label := "Start", yPosition := 0, isSubmenu := false, action := 2,
        color := ![0, 1, 0] } rfl
    have hshow : menuNearEdge.showMenu = true := rfl
    have hitems : menuNearEdge.menuItems = mainMenuItems := rfl
    simp only [getMenuItemAt, hshow, hitems, mainMenuItems, getMenuItemLoop, ieee_menuLeft,
      ieee_menuRight, hb, ht, hb2, xNearEdge]
    norm_num

/-- C29, amended: `getMenuItemAt` returns `-1` when the menu is hidden;
otherwise it returns the smallest index whose item passes the four comparisons
`x ≥ menuLeft`, `x ≤ menuRight`, `y ≤ itemTop`, `y ≥ itemBottom` against the
edges as the function computes them, each operation rounded
(`menuLeft = fl(menuX - MENU_WIDTH/2)`, `menuRight = fl(menuX + MENU_WIDTH/2)`,
`itemTop = fl(fl(menuY + yPosition) + ITEM_HEIGHT/2)`,
`itemBottom = fl(fl(menuY + yPosition) - ITEM_HEIGHT/2)`), and `-1` exactly
when no item passes them, whatever the rounding; a non-negative result is
below `menuItems.size()`, so the guard of `handleMenuSelection` lets it pass.
In exact arithmetic the four comparisons are the rectangle test
`|x - menuX| ≤ MENU_WIDTH/2` and `|y - (menuY + yPosition)| ≤ ITEM_HEIGHT/2`. -/
theorem getMenuItemAt_first_hit (rd : Rounding ℝ) (st : State ℝ) (x y : ℝ) :
    (st.showMenu = false → getMenuItemAt rd st x y = -1) ∧
      (st.showMenu = true →
        (getMenuItemAt rd st x y = -1 ↔
          ∀ (n : ℕ) (item : MenuItem ℝ), st.menuItems[n]? = some item →
            ¬ itemHit rd st x y item) ∧
        (getMenuItemAt rd st x y ≠ -1 →
          ∃ (n : ℕ) (item : MenuItem ℝ), st.menuItems[n]? = some item ∧
            getMenuItemAt rd st x y = (n : ℤ) ∧ itemHit rd st x y item ∧
            ∀ (m : ℕ) (item2 : MenuItem ℝ), m < n → st.menuItems[m]? = some item2 →
              ¬ itemHit rd st x y item2)) ∧
      (0 ≤ getMenuItemAt rd st x y →
        getMenuItemAt rd st x y < (st.menuItems.length : ℤ) ∧
        ¬ (getMenuItemAt rd st x y < 0 ∨ getMenuItemAt rd st x y ≥ (st.menuItems.length : ℤ))) ∧
      (∀ item : MenuItem ℝ, itemHit exactArith st x y item ↔ itemRectContains st x y item) := by
  have hhid : st.showMenu = false → getMenuItemAt rd st x y = -1 := by
    intro h
    simp [getMenuItemAt, h]
  have hshown : st.showMenu = true →
      getMenuItemAt rd st x y = getMenuItemLoop rd st x y st.menuItems 0 := by
    intro h
    simp [getMenuItemAt, h]
  have hspec := getMenuItemLoop_spec rd st x y st.menuItems 0
  refine ⟨hhid, ?_, ?_, itemHit_exactArith_iff st x y⟩
  · intro hs
    rw [hshown hs]
    rcases hspec with ⟨hr, hnone⟩ | ⟨n, item, hn, hr, hin, hfirst⟩
    · exact ⟨⟨fun _ => hnone, fun _ => hr⟩, fun hne => absurd hr hne⟩
    · have hne : getMenuItemLoop rd st x y st.menuItems 0 ≠ -1 := by
        rw [hr]
        omega
      refine ⟨⟨fun h => absurd h hne, fun hall => absurd hin (hall n item hn)⟩, fun _ => ?_⟩
      exact ⟨n, item, hn, by rw [hr]; simp, hin, hfirst⟩
  · intro hnn
    cases hs : st.showMenu
    · rw [hhid hs] at hnn
      omega
    · rw [hshown hs] at hnn ⊢
      rcases hspec with ⟨hr, _⟩ | ⟨n, item, hn, hr, _, _⟩
      · rw [hr] at hnn
        omega
      · have hlt : n < st.menuItems.length := by
          by_contra hge
          rw [List.getElem?_eq_none (by omega)] at hn
          simp at hn
        rw [hr]
        constructor
        · simp only [Nat.zero_add]
          exact_mod_cast hlt
        · simp only [Nat.zero_add]
          omega

/-- The statement of C29, amended, for the main menu opened at the centre of
the window in exact arithmetic and the point `(0, 0)`, which lies in the second
item: the menu is shown and the result is `1`. -/
theorem getMenuItemAt_first_hit_witness :
    (openedAtCentre : State ℝ).showMenu = true ∧
      getMenuItemAt exactArith (openedAtCentre : State ℝ) 0 0 = 1 ∧
      ((openedAtCentre : State ℝ).showMenu = false →
        getMenuItemAt exactArith (openedAtCentre : State ℝ) 0 0 = -1) ∧
      ((openedAtCentre : State ℝ).showMenu = true →
        (getMenuItemAt exactArith (openedAtCentre : State ℝ) 0 0 = -1 ↔
          ∀ (n : ℕ) (item : MenuItem ℝ), (openedAtCentre : State ℝ).menuItems[n]? = some item →
            ¬ itemHit exactArith (openedAtCentre : State ℝ) 0 0 item) ∧
        (getMenuItemAt exactArith (openedAtCentre : State ℝ) 0 0 ≠ -1 →
          ∃ (n : ℕ) (item : MenuItem ℝ), (openedAtCentre : State ℝ).menuItems[n]? = some item ∧
            getMenuItemAt exactArith (openedAtCentre : State ℝ) 0 0 = (n : ℤ) ∧
            itemHit exactArith (openedAtCentre : State ℝ) 0 0 item ∧
            ∀ (m : ℕ) (item2 : MenuItem ℝ), m < n →
              (openedAtCentre : State ℝ).menuItems[m]? = some item2 →
              ¬ itemHit exactArith (openedAtCentre : State ℝ) 0 0 item2)) ∧
      (0 ≤ getMenuItemAt exactArith (openedAtCentre : State ℝ) 0 0 →
        getMenuItemAt exactArith (openedAtCentre : State ℝ) 0 0
          < ((openedAtCentre : State ℝ).menuItems.length : ℤ) ∧
        ¬ (getMenuItemAt exactArith (openedAtCentre : State ℝ) 0 0 < 0 ∨
          getMenuItemAt exactArith (openedAtCentre : State ℝ) 0 0
            ≥ ((openedAtCentre : State ℝ).menuItems.length : ℤ))) ∧
      (∀ item : MenuItem ℝ, itemHit exactArith (openedAtCentre : State ℝ) 0 0 item ↔
        itemRectContains (openedAtCentre : State ℝ) 0 0 item) :=
  ⟨by
    simp [openedAtCentre, mouseButtonCallback, GLFW_MOUSE_BUTTON_RIGHT,
      GLFW_MOUSE_BUTTON_LEFT, GLFW_PRESS, initMenu, initialState],
   by
    simp [getMenuItemAt, openedAtCentre, mouseButtonCallback, GLFW_MOUSE_BUTTON_RIGHT,
      GLFW_MOUSE_BUTTON_LEFT, GLFW_PRESS, initMenu, mainMenuItems, getMenuItemLoop, initialState,
      WINDOW_WIDTH, WINDOW_HEIGHT, MENU_WIDTH, ITEM_HEIGHT, menuLeft, menuRight, itemTop,
      itemBottom, ndcOfX, ndcOfY, exactArith]
    norm_num,
   getMenuItemAt_first_hit exactArith openedAtCentre 0 0⟩

end PopupMenu

